import Mathlib

/-!
Verification development for the proxychain gateway: a SOCKS5 server that
tunnels each accepted connection through an upstream HTTP CONNECT proxy.

The per-session state machines of src/socks/handler.rs, src/socks/server_protocol.rs,
src/http/client.rs and src/http/client_protocol.rs, and the dispatch/teardown step
of src/socks/server.rs, are embedded shallowly:

- byte buffers become List UInt8; the size counters become Nat;
- the sockets are replaced by an explicit World record holding, per socket,
  a queue of read events (chunks of bytes, would-block, interrupted, fatal
  error) and a queue of write outcomes (accepted n bytes, would-block,
  interrupted, fatal error), plus a log of the byte strings handed to each
  write call;
- DNS resolution (trust_dns Resolver, an external collaborator) becomes an
  association list from domain byte strings to lists of resolved addresses;
- io::Result is the two-constructor type IoRes (ok done / err);
- a Rust index-out-of-bounds panic is modelled by an Option-valued function
  returning none.
-/

/-- ASCII encoding of a Lean string literal; every literal we encode is pure
ASCII so this agrees with UTF-8 byte-for-byte. -/
def ascii (s : String) : List UInt8 :=
  s.data.map (fun c => UInt8.ofNat c.toNat)

/-- States of the SOCKS5 session handler (src/socks/handler.rs, enum Socks5State). -/
inductive Socks5State
  | MethodRequest
  | MethodResponse
  | ConnectionRequest
  | ClientConnectionRequest
  | ClientConnectionResponse
  | ConnectionResponse
  | Relaying
  | Closed
deriving DecidableEq

/-- States of the HTTP CONNECT client (src/http/client.rs, enum HttpClientState). -/
inductive HttpClientState
  | ConnectionRequest
  | ConnectionEstablished
  | RelayingIN
  | RelayingOUT
  | Closed
deriving DecidableEq

/-- A resolved IP address, as handed back by the DNS collaborator. -/
inductive IpAddr
  | v4 (a b c d : UInt8)
  | v6 (bytes : List UInt8)
deriving DecidableEq

/-- Target (src/datatype.rs): ip and domain are byte strings (the Rust code
stores Strings; a String's bytes are what reaches the wire).  The resolved
socket address field is carried by the Rust struct but never read by the
state machines, so it is omitted here. -/
structure Target where
  ip : List UInt8
  port : Nat
  domain : List UInt8
deriving DecidableEq

/-- Target::new (src/datatype.rs). -/
def Target.new : Target :=
  { ip := [], port := 8080, domain := [] }

/-- Proxy (src/proxy.rs): only the resolved address is consumed by the core
(HttpClient::connect); it is abstracted to an opaque number. -/
structure Proxy where
  addr : Nat
deriving DecidableEq

/-- Lowercase hex rendering of a number with no leading zeros (0 prints as 0),
as the Rust fmt machinery renders an IPv6 segment. -/
def hexStr (n : Nat) : String :=
  String.mk (Nat.toDigits 16 n)

/-- Ipv4Addr Display: dotted decimal quad. -/
def ipv4Str (l : List UInt8) : List UInt8 :=
  ascii (String.intercalate "." (l.map (fun b => toString b.toNat)))

/-- Group a 16-byte IPv6 address into eight big-endian 16-bit segments. -/
def ipSegs : List UInt8 → List Nat
  | a :: b :: r => (a.toNat * 256 + b.toNat) :: ipSegs r
  | _ => []

/-- First longest run of zero segments: returns (start, length); scanning
state is (best, current); a run replaces the best only when strictly longer,
so the first longest run wins, as in the Rust std Display code. -/
def lzrAux : List Nat → Nat → Nat × Nat → Nat × Nat → Nat × Nat
  | [], _, best, cur => if cur.2 > best.2 then cur else best
  | s :: r, i, best, cur =>
    if s = 0 then
      lzrAux r (i + 1) best (if cur.2 = 0 then (i, 1) else (cur.1, cur.2 + 1))
    else
      lzrAux r (i + 1) (if cur.2 > best.2 then cur else best) (0, 0)

/-- Ipv6Addr Display: the IPv4-mapped special case, else compression of the
first longest zero-segment run when it is longer than one segment. -/
def ipv6Str (l : List UInt8) : List UInt8 :=
  let s := ipSegs l
  match s with
  | [0, 0, 0, 0, 0, 65535, _, _] => ascii "::ffff:" ++ ipv4Str (l.drop 12)
  | _ =>
    let best := lzrAux s 0 (0, 0) (0, 0)
    if best.2 > 1 then
      ascii (String.intercalate ":" ((s.take best.1).map hexStr) ++ "::" ++
        String.intercalate ":" ((s.drop (best.1 + best.2)).map hexStr))
    else
      ascii (String.intercalate ":" (s.map hexStr))

/-- Display of a resolved address (ToString on the IpAddr handed back by the
resolver). -/
def IpAddr.display : IpAddr → List UInt8
  | .v4 a b c d => ipv4Str [a, b, c, d]
  | .v6 bs => ipv6Str bs

/-- UTF-8 continuation byte test. -/
def isCont (c : UInt8) : Bool :=
  128 ≤ c && c ≤ 191

/-- Validity of a byte string as UTF-8, exactly the check performed by Rust
String::from_utf8 (shortest-form encodings, no surrogates, max U+10FFFF). -/
def utf8Valid : List UInt8 → Bool
  | [] => true
  | b :: r =>
    if b ≤ 127 then utf8Valid r
    else if 194 ≤ b && b ≤ 223 then
      match r with
      | c :: r2 => isCont c && utf8Valid r2
      | _ => false
    else if b = 224 then
      match r with
      | c :: d :: r2 => (160 ≤ c && c ≤ 191) && isCont d && utf8Valid r2
      | _ => false
    else if (225 ≤ b && b ≤ 236) || b = 238 || b = 239 then
      match r with
      | c :: d :: r2 => isCont c && isCont d && utf8Valid r2
      | _ => false
    else if b = 237 then
      match r with
      | c :: d :: r2 => (128 ≤ c && c ≤ 159) && isCont d && utf8Valid r2
      | _ => false
    else if b = 240 then
      match r with
      | c :: d :: e :: r2 => (144 ≤ c && c ≤ 191) && isCont d && isCont e && utf8Valid r2
      | _ => false
    else if 241 ≤ b && b ≤ 243 then
      match r with
      | c :: d :: e :: r2 => isCont c && isCont d && isCont e && utf8Valid r2
      | _ => false
    else if b = 244 then
      match r with
      | c :: d :: e :: r2 => (128 ≤ c && c ≤ 143) && isCont d && isCont e && utf8Valid r2
      | _ => false
    else false

/-- The HTTP CONNECT line built by client_protocol::connection_request
(src/http/client_protocol.rs): the format string with host and port spliced
in twice; the Rust source writes the space as an escape, which is the same
byte. -/
def connectMsg (host : List UInt8) (port : Nat) : List UInt8 :=
  ascii "CONNECT " ++ host ++ ascii ":" ++ ascii (toString port) ++
    ascii " HTTP/1.1\r\nProxy-Connection: keep-alive\r\nConnection: keep-alive\r\nHost: " ++
    host ++ ascii ":" ++ ascii (toString port) ++ ascii "\r\n\r\n"

/-- io::Result of the handler and client operations: ok carries the done
flag, err is any non-swallowed I/O error (the error payload is never
inspected by the callers, only propagated, so it is dropped). -/
inductive IoRes
  | ok (done : Bool)
  | err
deriving DecidableEq

/-- One outcome of a read syscall on a socket, as delivered by the
environment: a chunk of available bytes (the kernel hands over at most the
free space of the passed slice), would-block, interrupted, or a fatal
error. An empty chunk is read size 0, i.e. EOF. -/
inductive ReadEv
  | chunk (data : List UInt8)
  | wouldBlock
  | interrupted
  | fatal
deriving DecidableEq

/-- One outcome of a write syscall: the kernel accepted n bytes (capped at
the submitted length), would-block, interrupted, or a fatal error. -/
inductive WriteEv
  | accept (n : Nat)
  | wouldBlock
  | interrupted
  | fatal
deriving DecidableEq

/-- The environment of one session: event queues for the inbound socket and
the upstream socket, outcomes for TcpStream::connect, the DNS table, and
logs of the byte strings submitted to each write call. -/
structure World where
  inReads : List ReadEv
  inWrites : List WriteEv
  outReads : List ReadEv
  outWrites : List WriteEv
  connects : List IoRes
  dns : List (List UInt8 × List IpAddr)
  inLog : List (List UInt8)
  outLog : List (List UInt8)
deriving DecidableEq

/-- Result of the shared read loop of Socks5Handler::read_stream and
HttpClient::read_buffer: closed is the Ok(0) path (EOF: caller state goes
to Closed, result Ok(true)); drained is the would-block path (result
Ok(false), buffer resized down to size); ioErr is a fatal error. Every
constructor carries the buffer and size as left by the loop. -/
inductive ReadOut
  | closed (buffer : List UInt8) (size : Nat)
  | drained (buffer : List UInt8) (size : Nat)
  | ioErr (buffer : List UInt8) (size : Nat)
deriving DecidableEq

/-- The final resize of the read loop: after breaking on would-block the
buffer is resized down to size when they differ. -/
def trimBuf (buffer : List UInt8) (size : Nat) : List UInt8 :=
  if size ≠ buffer.length then buffer.take size else buffer

/-- The read loop shared by Socks5Handler::read_stream and
HttpClient::read_buffer: read into buffer from offset size; on Ok(0) stop
(EOF); on Ok(n) advance size and grow the buffer by 1024 when full; break
on would-block; retry on interrupted; stop on any other error. The first
component of the result is the unconsumed remainder of the event queue. -/
def readLoop : List ReadEv → List UInt8 → Nat → List ReadEv × ReadOut
  | [], buffer, size => ([], .drained (trimBuf buffer size) size)
  | .wouldBlock :: evs, buffer, size => (evs, .drained (trimBuf buffer size) size)
  | .interrupted :: evs, buffer, size => readLoop evs buffer size
  | .fatal :: evs, buffer, size => (evs, .ioErr buffer size)
  | .chunk d :: evs, buffer, size =>
    let n := min d.length (buffer.length - size)
    if n = 0 then (evs, .closed buffer size)
    else
      let buffer2 := buffer.take size ++ d.take n ++ buffer.drop (size + n)
      let size2 := size + n
      if size2 = buffer2.length then readLoop evs (buffer2 ++ List.replicate 1024 0) size2
      else readLoop evs buffer2 size2

/-- Pop the next write outcome; an exhausted queue behaves like would-block
(nothing accepted now). -/
def popWrite : List WriteEv → WriteEv × List WriteEv
  | [] => (.wouldBlock, [])
  | e :: r => (e, r)

/-- Pop the next connect outcome; an exhausted queue means a plain
successful connect. -/
def popConnect : List IoRes → IoRes × List IoRes
  | [] => (.ok false, [])
  | e :: r => (e, r)

/-- HttpClient (src/http/client.rs): the upstream socket handle is reduced
to the is_some flag of the stream field; the socket itself lives in World. -/
structure HttpClient where
  remote : Proxy
  target : Target
  hasStream : Bool
  buffer : List UInt8
  size : Nat
  state : HttpClientState
deriving DecidableEq

/-- HttpClient::new: a 4096-byte zeroed buffer, size 0, state ConnectionRequest. -/
def HttpClient.new (remote : Proxy) (target : Target) : HttpClient :=
  { remote := remote, target := target, hasStream := false,
    buffer := List.replicate 4096 0, size := 0, state := .ConnectionRequest }

/-- HttpClient::set_state. -/
def HttpClient.set_state (c : HttpClient) (s : HttpClientState) : HttpClient :=
  { c with state := s }

/-- HttpClient::clear_buffer: clear then resize to 4096 zero bytes; size 0. -/
def HttpClient.clear_buffer (c : HttpClient) : HttpClient :=
  { c with buffer := List.replicate 4096 0, size := 0 }

/-- HttpClient::reset_buffer: clears the buffer only; size is left alone. -/
def HttpClient.reset_buffer (c : HttpClient) : HttpClient :=
  { c with buffer := [] }

/-- HttpClient::put_buff: extend the buffer and add the length to size. -/
def HttpClient.put_buff (c : HttpClient) (value : List UInt8) : HttpClient :=
  { c with buffer := c.buffer ++ value, size := c.size + value.length }

/-- HttpClient::clone_buffer: buffer becomes a copy of source, size its length. -/
def HttpClient.clone_buffer (c : HttpClient) (source : List UInt8) : HttpClient :=
  { c with buffer := source, size := source.length }

/-- HttpClient::extract_statuscode: UnexpectedEof (none) when size < 12,
else fold the three bytes at offsets 9..12 as decimal digits with the
wrapping u16 arithmetic of the source (result*10 + byte - 0x30 on u16). -/
def HttpClient.extract_statuscode (c : HttpClient) : Option Nat :=
  if c.size < 12 then none
  else
    some (((c.buffer.drop 9).take 3).foldl
      (fun r b => (r * 10 + (b.toNat + 65536 - 48) % 65536) % 65536) 0)

/-- HttpClient::read_buffer over the upstream read queue. -/
def HttpClient.read_buffer (c : HttpClient) (w : World) : HttpClient × World × IoRes :=
  match readLoop w.outReads c.buffer c.size with
  | (evs, .closed buffer size) =>
    ({ c with buffer := buffer, size := size, state := .Closed },
      { w with outReads := evs }, .ok true)
  | (evs, .drained buffer size) =>
    ({ c with buffer := buffer, size := size }, { w with outReads := evs }, .ok false)
  | (evs, .ioErr buffer size) =>
    ({ c with buffer := buffer, size := size }, { w with outReads := evs }, .err)

/-- HttpClient::write_buffer: one write attempt of the whole buffer; short
write (fewer accepted than size) is a WriteZero error; on success size
drops by the accepted count; would-block is swallowed; interrupted closes
the client and reports done. The submitted bytes are logged. -/
def HttpClient.write_buffer (c : HttpClient) (w : World) : HttpClient × World × IoRes :=
  let pr := popWrite w.outWrites
  let w2 := { w with outWrites := pr.2, outLog := w.outLog ++ [c.buffer] }
  match pr.1 with
  | .accept m =>
    let n := min m c.buffer.length
    if n < c.size then (c, w2, .err)
    else ({ c with size := c.size - n }, w2, .ok false)
  | .wouldBlock => (c, w2, .ok false)
  | .interrupted => ({ c with state := .Closed }, w2, .ok true)
  | .fatal => (c, w2, .err)

/-- HttpClient::connect: when no stream exists yet, open the upstream
socket. The TcpStream::connect, set_nodelay and register outcomes are
collapsed into one queued IoRes: err for a propagated error, ok true for a
failed connect (session aborts), ok false for success. -/
def HttpClient.connect (c : HttpClient) (w : World) : HttpClient × World × IoRes :=
  let pr := popConnect w.connects
  let w2 := { w with connects := pr.2 }
  match pr.1 with
  | .err => (c, w2, .err)
  | .ok true => (c, w2, .ok true)
  | .ok false => ({ c with hasStream := true }, w2, .ok false)

/-- client_protocol::connection_request (src/http/client_protocol.rs):
reset the buffer, append the CONNECT line, attempt one write, then set
state ConnectionEstablished (this last assignment happens whatever the
write returned, overwriting a Closed set by an interrupted write). -/
def http_connection_request (c : HttpClient) (w : World) : HttpClient × World × IoRes :=
  let c1 := c.reset_buffer
  let msg := connectMsg c1.target.domain c1.target.port
  let c2 := c1.put_buff msg
  let r := c2.write_buffer w
  (r.1.set_state .ConnectionEstablished, r.2.1, r.2.2)

/-- client_protocol::connection_response: clear, drain the upstream reply,
bail out on EOF or error, treat an empty drain as done, extract the status
code (an extraction error propagates), require exactly 200, then move to
RelayingOUT. -/
def http_connection_response (c : HttpClient) (w : World) : HttpClient × World × IoRes :=
  match (c.clear_buffer).read_buffer w with
  | (c1, w1, .ok true) => (c1, w1, .ok true)
  | (c1, w1, .err) => (c1, w1, .err)
  | (c1, w1, .ok false) =>
    if c1.size = 0 then (c1, w1, .ok true)
    else
      match c1.extract_statuscode with
      | none => (c1, w1, .err)
      | some code =>
        if code ≠ 200 then (c1, w1, .ok true)
        else (c1.set_state .RelayingOUT, w1, .ok false)

/-- client_protocol::relay_in (receive from the HTTP proxy): clear, drain,
then move to RelayingOUT. -/
def http_relay_in (c : HttpClient) (w : World) : HttpClient × World × IoRes :=
  match (c.clear_buffer).read_buffer w with
  | (c1, w1, .ok true) => (c1, w1, .ok true)
  | (c1, w1, .err) => (c1, w1, .err)
  | (c1, w1, .ok false) => (c1.set_state .RelayingOUT, w1, .ok false)

/-- client_protocol::relay_out (send to the HTTP proxy): an empty buffer
reports done without touching the state or the socket; otherwise move to
RelayingIN and attempt the write. -/
def http_relay_out (c : HttpClient) (w : World) : HttpClient × World × IoRes :=
  if c.size = 0 then (c, w, .ok true)
  else (c.set_state .RelayingIN).write_buffer w

/-- The result post-processing at the bottom of HttpClient::handle: Ok(true)
and Err(_) both collapse to a done=true return. -/
def squash : IoRes → IoRes
  | .ok true => .ok true
  | .err => .ok true
  | .ok false => .ok false

/-- HttpClient::handle (src/http/client.rs): dispatch on the current state;
in RelayingOUT clone the borrowed value into the buffer first (value.unwrap
panics when no value was passed: modelled as none); in RelayingIN errors
propagate while the other states squash them to done. -/
def HttpClient.handle (c : HttpClient) (w : World) (value : Option (List UInt8)) :
    Option (HttpClient × World × IoRes) :=
  match c.state with
  | .ConnectionRequest =>
    let r := http_connection_request c w
    some (r.1, r.2.1, squash r.2.2)
  | .ConnectionEstablished =>
    let r := http_connection_response c w
    some (r.1, r.2.1, squash r.2.2)
  | .RelayingOUT =>
    match value with
    | none => none
    | some v =>
      let c1 := { c with buffer := v, size := v.length }
      let r := http_relay_out c1 w
      some (r.1, r.2.1, squash r.2.2)
  | .RelayingIN =>
    match http_relay_in c w with
    | (c1, w1, .err) => some (c1, w1, .err)
    | (c1, w1, .ok b) =>
      if c1.size = 0 ∧ b then some (c1, w1, .ok true) else some (c1, w1, .ok false)
  | .Closed => some (c, w, .ok false)

/-- Socks5Handler (src/socks/handler.rs): the inbound socket handle lives in
World; the slab of children holds at most one HttpClient in this program
(Option); the cumulative intotal byte counter is purely diagnostic (logged,
never read) and is omitted. -/
structure Socks5Handler where
  token : Nat
  buffer : List UInt8
  size : Nat
  target : Target
  state : Socks5State
  subproxy : List Proxy
  client : Option HttpClient
deriving DecidableEq

/-- Socks5Handler::new. -/
def Socks5Handler.new (token : Nat) (subproxy : List Proxy) : Socks5Handler :=
  { token := token, buffer := List.replicate 4096 0, size := 0,
    target := Target.new, state := .MethodRequest, subproxy := subproxy, client := none }

/-- Socks5Handler::set_state. -/
def Socks5Handler.set_state (h : Socks5Handler) (s : Socks5State) : Socks5Handler :=
  { h with state := s }

/-- Socks5Handler::set_target. -/
def Socks5Handler.set_target (h : Socks5Handler) (t : Target) : Socks5Handler :=
  { h with target := t }

/-- Socks5Handler::put_buffer: bump size and append one byte. -/
def Socks5Handler.put_buffer (h : Socks5Handler) (value : UInt8) : Socks5Handler :=
  { h with size := h.size + 1, buffer := h.buffer ++ [value] }

/-- Socks5Handler::clear_buffer: clear then resize to 4096 zeros; size 0. -/
def Socks5Handler.clear_buffer (h : Socks5Handler) : Socks5Handler :=
  { h with buffer := List.replicate 4096 0, size := 0 }

/-- Socks5Handler::reset_buffer: clear the buffer and zero size. -/
def Socks5Handler.reset_buffer (h : Socks5Handler) : Socks5Handler :=
  { h with buffer := [], size := 0 }

/-- Socks5Handler::extract_buffer: copy k bytes starting at start out of the
buffer; the source loop indexes the buffer directly, so any out-of-range
index is a panic, modelled as none. -/
def extract_buffer (buffer : List UInt8) (k start : Nat) : Option (List UInt8) :=
  if start + k ≤ buffer.length then some ((buffer.drop start).take k) else none

/-- Socks5Handler::read_stream over the inbound read queue. -/
def Socks5Handler.read_stream (h : Socks5Handler) (w : World) :
    Socks5Handler × World × IoRes :=
  match readLoop w.inReads h.buffer h.size with
  | (evs, .closed buffer size) =>
    ({ h with buffer := buffer, size := size, state := .Closed },
      { w with inReads := evs }, .ok true)
  | (evs, .drained buffer size) =>
    ({ h with buffer := buffer, size := size }, { w with inReads := evs }, .ok false)
  | (evs, .ioErr buffer size) =>
    ({ h with buffer := buffer, size := size }, { w with inReads := evs }, .err)

/-- Socks5Handler::write_stream: one write attempt of the whole buffer;
fewer accepted bytes than size is a WriteZero error; unlike the client,
size is not decremented on success; would-block is swallowed; interrupted
closes the handler and reports done. -/
def Socks5Handler.write_stream (h : Socks5Handler) (w : World) :
    Socks5Handler × World × IoRes :=
  let pr := popWrite w.inWrites
  let w2 := { w with inWrites := pr.2, inLog := w.inLog ++ [h.buffer] }
  match pr.1 with
  | .accept m =>
    let n := min m h.buffer.length
    if n < h.size then (h, w2, .err)
    else (h, w2, .ok false)
  | .wouldBlock => (h, w2, .ok false)
  | .interrupted => ({ h with state := .Closed }, w2, .ok true)
  | .fatal => (h, w2, .err)

/-- The validation block of server_protocol::method_request
(src/socks/server_protocol.rs) applied to the drained buffer: reject size
under 3, version not 5, a size different from 2 + nmethod, and a method
list without the 0x00 no-auth method; on success the next state is
MethodResponse with done false, on failure Closed with done true. The
indexing at 0 and 1 is in range because the drained buffer has length size
at least 3, so getD cannot fall back to its default. -/
def method_request_parse (buffer : List UInt8) (size : Nat) : Socks5State × Bool :=
  if size < 3 then (.Closed, true)
  else
    let version := buffer.getD 0 0
    let nmethod := buffer.getD 1 0
    if version ≠ 5 then (.Closed, true)
    else if size ≠ 2 + nmethod.toNat then (.Closed, true)
    else if ((buffer.drop 2).take nmethod.toNat).any (fun m => m == 0) then
      (.MethodResponse, false)
    else (.Closed, true)

/-- server_protocol::method_request: clear, drain the inbound socket, then
run the validation block and set the state it decides. -/
def socks_method_request (h : Socks5Handler) (w : World) :
    Socks5Handler × World × IoRes :=
  match (h.clear_buffer).read_stream w with
  | (h1, w1, .ok true) => (h1, w1, .ok true)
  | (h1, w1, .err) => (h1, w1, .err)
  | (h1, w1, .ok false) =>
    let pr := method_request_parse h1.buffer h1.size
    (h1.set_state pr.1, w1, .ok pr.2)

/-- server_protocol::method_response: reset, emit the two-byte reply 05 00,
write, then set ConnectionRequest (again overwriting a Closed left by an
interrupted write). -/
def socks_method_response (h : Socks5Handler) (w : World) :
    Socks5Handler × World × IoRes :=
  let h1 := ((h.reset_buffer).put_buffer 5).put_buffer 0
  let r := h1.write_stream w
  (r.1.set_state .ConnectionRequest, r.2.1, r.2.2)

/-- The parsing block of server_protocol::connection_request applied to the
drained buffer: the source reads bytes 0..4 (VER, CMD, RSV, ATYP) without
any length check, so a drained frame shorter than 4 bytes hits an
out-of-bounds index (none). Then VER=5, CMD=1 (CONNECT), RSV=0 are
required, and the ATYP arms run with their own length guards; ATYP 3 reads
the domain length byte and copies that many bytes from offset 5 without
checking they exist (another possible out-of-bounds panic), validates
UTF-8, resolves via the DNS table and takes the first address; the port for
ATYP 3 sits in the last two bytes of the drained frame. Success returns
ClientConnectionRequest, done false and the new Target; every rejection
returns Closed, done true and no Target. -/
def socks_parse_request (dns : List (List UInt8 × List IpAddr))
    (buffer : List UInt8) (size : Nat) : Option (Socks5State × Bool × Option Target) :=
  match buffer.get? 0, buffer.get? 1, buffer.get? 2, buffer.get? 3 with
  | some version, some cmd, some rsv, some atyp =>
    if version ≠ 5 then some (.Closed, true, none)
    else if cmd ≠ 1 then some (.Closed, true, none)
    else if rsv ≠ 0 then some (.Closed, true, none)
    else if atyp = 1 then
      if size < 10 then some (.Closed, true, none)
      else
        match extract_buffer buffer 4 4, buffer.get? 8, buffer.get? 9 with
        | some ip, some hi, some lo =>
          let ipStr := ipv4Str ip
          some (.ClientConnectionRequest, false,
            some { ip := ipStr, port := hi.toNat * 256 + lo.toNat, domain := ipStr })
        | _, _, _ => none
    else if atyp = 4 then
      if size < 22 then some (.Closed, true, none)
      else
        match extract_buffer buffer 16 4, buffer.get? 20, buffer.get? 21 with
        | some ip, some hi, some lo =>
          let ipStr := ipv6Str ip
          some (.ClientConnectionRequest, false,
            some { ip := ipStr, port := hi.toNat * 256 + lo.toNat, domain := ipStr })
        | _, _, _ => none
    else if atyp = 3 then
      if size < 8 then some (.Closed, true, none)
      else
        match buffer.get? 4 with
        | none => none
        | some dlen =>
          match extract_buffer buffer dlen.toNat 5 with
          | none => none
          | some domain =>
            if utf8Valid domain then
              match (dns.find? (fun p => p.1 == domain)).map (fun p => p.2) with
              | none => some (.Closed, true, none)
              | some ips =>
                match buffer.get? (size - 2), buffer.get? (size - 1) with
                | some hi, some lo =>
                  match ips.head? with
                  | none => some (.Closed, true, none)
                  | some ip =>
                    some (.ClientConnectionRequest, false,
                      some { ip := ip.display, port := hi.toNat * 256 + lo.toNat,
                             domain := domain })
                | _, _ => none
            else some (.Closed, true, none)
    else some (.Closed, true, none)
  | _, _, _, _ => none

/-- server_protocol::connection_request: clear, drain, then run the parsing
block; on success install the Target and move to ClientConnectionRequest,
on rejection move to Closed with done; a modelled panic propagates as
none. -/
def socks_connection_request (h : Socks5Handler) (w : World) :
    Option (Socks5Handler × World × IoRes) :=
  match (h.clear_buffer).read_stream w with
  | (h1, w1, .ok true) => some (h1, w1, .ok true)
  | (h1, w1, .err) => some (h1, w1, .err)
  | (h1, w1, .ok false) =>
    match socks_parse_request w1.dns h1.buffer h1.size with
    | none => none
    | some (st, done, tgt) =>
      let h2 := match tgt with
        | some t => h1.set_target t
        | none => h1
      some (h2.set_state st, w1, .ok done)

/-- server_protocol::connection_response: reset, emit the ten-byte success
reply 05 00 00 01 00 00 00 00 00 00, write, then set Relaying (overwriting
a Closed left by an interrupted write). -/
def socks_connection_response (h : Socks5Handler) (w : World) :
    Socks5Handler × World × IoRes :=
  let h1 := ((((((((((h.reset_buffer).put_buffer 5).put_buffer 0).put_buffer 0).put_buffer
    1).put_buffer 0).put_buffer 0).put_buffer 0).put_buffer 0).put_buffer 0).put_buffer 0
  let r := h1.write_stream w
  (r.1.set_state .Relaying, r.2.1, r.2.2)

/-- server_protocol::relay_in (inbound bytes toward upstream): clear, drain
the inbound socket, then push a copy of the handler buffer through the
child client's write path; the unwrap of the child is a panic (none) when
no client exists. -/
def socks_relay_in (h : Socks5Handler) (w : World) :
    Option (Socks5Handler × World × IoRes) :=
  match (h.clear_buffer).read_stream w with
  | (h1, w1, .ok true) => some (h1, w1, .ok true)
  | (h1, w1, .err) => some (h1, w1, .err)
  | (h1, w1, .ok false) =>
    match h1.client with
    | none => none
    | some c =>
      let c1 := (c.reset_buffer).clone_buffer h1.buffer
      let r := c1.write_buffer w1
      some ({ h1 with client := some r.1 }, r.2.1, r.2.2)

/-- server_protocol::relay_out (upstream bytes toward the inbound socket):
reset the handler buffer, drain the upstream socket through the child, do
nothing when nothing arrived, else copy the child buffer over (the
handler's size stays 0, so the short-write guard of write_stream can never
trip here) and write it to the inbound socket. -/
def socks_relay_out (h : Socks5Handler) (w : World) :
    Option (Socks5Handler × World × IoRes) :=
  let h1 := h.reset_buffer
  match h1.client with
  | none => none
  | some c =>
    match (c.clear_buffer).read_buffer w with
    | (c1, w1, .ok true) => some ({ h1 with client := some c1 }, w1, .ok true)
    | (c1, w1, .err) => some ({ h1 with client := some c1 }, w1, .err)
    | (c1, w1, .ok false) =>
      if c1.size = 0 then some ({ h1 with client := some c1 }, w1, .ok false)
      else
        let h2 := { h1 with buffer := c1.buffer, client := some c1 }
        let r := h2.write_stream w1
        some (r.1, r.2.1, r.2.2)

/-- Control flow of one phase of Socks5Handler::handle: done is an early
return carrying the final result, next continues with the updated session,
token counter, child-token table and world. -/
inductive BranchOut
  | done (h : Socks5Handler) (uniq : Nat) (sub : List (Nat × Nat)) (w : World) (r : IoRes)
  | next (h : Socks5Handler) (uniq : Nat) (sub : List (Nat × Nat)) (w : World)

/-- The readable phase of Socks5Handler::handle: MethodRequest and
ConnectionRequest run only when the event token equals the handler's own
token; ClientConnectionResponse delegates to the child whatever token the
event carries. The ConnectionRequest arm creates the HTTP client, mints the
next token, connects, and inserts the child token into the child-to-parent
table regardless of how the request parse went. Phase results Ok(true) and
Err both early-return Ok(true). -/
def socks_readable (h : Socks5Handler) (tok uniq : Nat) (sub : List (Nat × Nat))
    (w : World) : Option BranchOut :=
  if h.state = .MethodRequest ∧ tok = h.token then
    match socks_method_request h w with
    | (h1, w1, .ok false) => some (.next h1 uniq sub w1)
    | (h1, w1, _) => some (.done h1 uniq sub w1 (.ok true))
  else if h.state = .ConnectionRequest ∧ tok = h.token then
    match socks_connection_request h w with
    | none => none
    | some (h1, w1, handleRes) =>
      match h1.subproxy.head? with
      | none => none
      | some proxy =>
        let client := HttpClient.new proxy h1.target
        let nextTok := uniq
        let cr := client.connect w1
        let sub1 := (nextTok, h1.token) :: sub
        let h2 := { h1 with client := some cr.1 }
        if cr.2.2 = .ok false ∧ handleRes = .ok false then
          some (.next h2 (uniq + 1) sub1 cr.2.1)
        else some (.done h2 (uniq + 1) sub1 cr.2.1 (.ok true))
  else if h.state = .ClientConnectionResponse then
    match h.client with
    | none => none
    | some c =>
      let h1 := h.set_state .ConnectionResponse
      match c.handle w none with
      | none => none
      | some (c1, w1, res) =>
        let h2 := { h1 with client := some c1 }
        if res = .ok false then some (.next h2 uniq sub w1)
        else some (.done h2 uniq sub w1 (.ok true))
  else some (.next h uniq sub w)

/-- The writable phase of Socks5Handler::handle: MethodResponse and
ConnectionResponse write their replies on the inbound socket;
ClientConnectionRequest delegates to the child whatever token the event
carries, after stepping the handler state to ClientConnectionResponse.
Phase results Ok(true) and Err both early-return Ok(true). -/
def socks_writable (h : Socks5Handler) (_tok uniq : Nat) (sub : List (Nat × Nat))
    (w : World) : Option BranchOut :=
  if h.state = .MethodResponse then
    match socks_method_response h w with
    | (h1, w1, .ok false) => some (.next h1 uniq sub w1)
    | (h1, w1, _) => some (.done h1 uniq sub w1 (.ok true))
  else if h.state = .ClientConnectionRequest then
    match h.client with
    | none => none
    | some c =>
      let h1 := h.set_state .ClientConnectionResponse
      match c.handle w none with
      | none => none
      | some (c1, w1, res) =>
        let h2 := { h1 with client := some c1 }
        if res = .ok false then some (.next h2 uniq sub w1)
        else some (.done h2 uniq sub w1 (.ok true))
  else if h.state = .ConnectionResponse then
    match socks_connection_response h w with
    | (h1, w1, .ok false) => some (.next h1 uniq sub w1)
    | (h1, w1, _) => some (.done h1 uniq sub w1 (.ok true))
  else some (.next h uniq sub w)

/-- Socks5Handler::handle: run the readable phase when the event is
readable, then the writable phase on the possibly advanced state when the
event is writable, then, when the state has reached Relaying, relay in the
direction chosen by comparing the event token with the handler token (the
relay results, including errors, return directly). The phases never run
when the corresponding readiness bit is off. The tuple is (handler, token
counter, child-token table, world, io result). -/
def Socks5Handler.handle (h : Socks5Handler) (tok uniq : Nat)
    (sub : List (Nat × Nat)) (readable writable : Bool) (w : World) :
    Option (Socks5Handler × Nat × List (Nat × Nat) × World × IoRes) :=
  match (if readable then socks_readable h tok uniq sub w else some (.next h uniq sub w)) with
  | none => none
  | some (.done h1 u1 s1 w1 r) => some (h1, u1, s1, w1, r)
  | some (.next h1 u1 s1 w1) =>
    match (if writable then socks_writable h1 tok u1 s1 w1 else some (.next h1 u1 s1 w1)) with
    | none => none
    | some (.done h2 u2 s2 w2 r) => some (h2, u2, s2, w2, r)
    | some (.next h2 u2 s2 w2) =>
      if h2.state = .Relaying then
        if tok ≠ h2.token then
          match socks_relay_out h2 w2 with
          | none => none
          | some (h3, w3, r) => some (h3, u2, s2, w3, r)
        else
          match socks_relay_in h2 w2 with
          | none => none
          | some (h3, w3, r) => some (h3, u2, s2, w3, r)
      else some (h2, u2, s2, w2, .ok false)

/-- Association-list lookup standing in for the FnvHashMap get. -/
def assocFind (l : List (Nat × Nat)) (k : Nat) : Option Nat :=
  (l.find? (fun p => p.1 == k)).map (fun p => p.2)

/-- Association-list removal standing in for the FnvHashMap remove. -/
def assocRemove (l : List (Nat × Nat)) (k : Nat) : List (Nat × Nat) :=
  l.filter (fun p => p.1 != k)

/-- The session bookkeeping of the server loop (src/socks/server.rs): the
slab is reduced to its set of occupied keys, plus the token-to-slab-key map
and the child-token-to-parent-token map. -/
structure ServerTables where
  slabKeys : List Nat
  handler_map : List (Nat × Nat)
  subtoken : List (Nat × Nat)
deriving DecidableEq

/-- The key resolution of the dispatch path: look the token up directly,
else through the child-to-parent table; none means log-and-continue. -/
def lookupKey (st : ServerTables) (tok : Nat) : Option Nat :=
  match assocFind st.handler_map tok with
  | some k => some k
  | none =>
    match assocFind st.subtoken tok with
    | some parent => assocFind st.handler_map parent
    | none => none

/-- One dispatch iteration of Socks5Server::serve for a non-listener token,
with the handler.handle call abstracted by its result res: no resolvable
key is a continue; a resolved key missing from the slab removes the stale
subtoken entry and continues; an Err from handle propagates out of serve
through the question-mark operator (no removal happens); done=true removes
the slab entry and removes the event token from both tables; done=false
changes nothing. -/
def serve_dispatch (st : ServerTables) (tok : Nat) (res : IoRes) :
    Option ServerTables :=
  match lookupKey st tok with
  | none => some st
  | some key =>
    if st.slabKeys.contains key then
      match res with
      | .err => none
      | .ok true =>
        some { slabKeys := st.slabKeys.filter (fun k => k != key),
               handler_map := assocRemove st.handler_map tok,
               subtoken := assocRemove st.subtoken tok }
      | .ok false => some st
    else some { st with subtoken := assocRemove st.subtoken tok }

/-- Position of a handler state in the intended forward order of the spec. -/
def socksRank : Socks5State → Nat
  | .MethodRequest => 0
  | .MethodResponse => 1
  | .ConnectionRequest => 2
  | .ClientConnectionRequest => 3
  | .ClientConnectionResponse => 4
  | .ConnectionResponse => 5
  | .Relaying => 6
  | .Closed => 7

/-- Position of a client state in the intended forward order of the spec. -/
def httpRank : HttpClientState → Nat
  | .ConnectionRequest => 0
  | .ConnectionEstablished => 1
  | .RelayingOUT => 2
  | .RelayingIN => 3
  | .Closed => 4

/-- The handler carried by a phase outcome. -/
def BranchOut.sess : BranchOut → Socks5Handler
  | .done h _ _ _ _ => h
  | .next h _ _ _ => h

/-- The rejection condition of the method request in the words of the claim:
size under 3, or byte 0 not 0x05, or size different from 2 + nmethod, or
none of the nmethod method octets starting at byte 2 equal to 0x00; stated
over the drained buffer, whose length is the drained size. -/
def method_reject_spec (buffer : List UInt8) : Prop :=
  buffer.length < 3 ∨ buffer.getD 0 0 ≠ 5 ∨
    buffer.length ≠ 2 + (buffer.getD 1 0).toNat ∨
    (∀ m ∈ (buffer.drop 2).take (buffer.getD 1 0).toNat, m ≠ 0)

/-- A world with no pending events: reads and writes would block. -/
def emptyWorld : World :=
  ⟨[], [], [], [], [], [], [], []⟩

/-- The upstream proxy endpoint used by the concrete scenarios. -/
def proxy0 : Proxy :=
  ⟨0⟩

/-- A session handler awaiting the child writable event: state
ClientConnectionRequest with a freshly created HTTP client, inbound token 10. -/
def ccrHandler : Socks5Handler :=
  { Socks5Handler.new 10 [proxy0] with
    state := .ClientConnectionRequest,
    client := some (HttpClient.new proxy0 Target.new) }

/-- The same session one step later: state ClientConnectionResponse. -/
def ccrspHandler : Socks5Handler :=
  { ccrHandler with state := .ClientConnectionResponse }

/-- An established HTTP client about to receive relayed upstream bytes. -/
def cycleClient : HttpClient :=
  ⟨proxy0, Target.new, true, [1], 1, .RelayingIN⟩

/-- A world holding one upstream byte followed by would-block. -/
def cycleWorld : World :=
  { emptyWorld with outReads := [.chunk [7], .wouldBlock] }

/-- A client already torn down, on which handle must be inert. -/
def closedClient : HttpClient :=
  ⟨proxy0, Target.new, true, [], 0, .Closed⟩

/-- A client waiting for the CONNECT reply. -/
def respClient : HttpClient :=
  (HttpClient.new proxy0 Target.new).set_state .ConnectionEstablished

/-- The bytes of a complete 200 CONNECT reply. -/
def respBytes : List UInt8 :=
  ascii "HTTP/1.1 200 OK\r\n\r\n"

/-- A world delivering a complete 200 CONNECT reply on the upstream socket. -/
def respWorld : World :=
  { emptyWorld with outReads := [.chunk respBytes, .wouldBlock] }

/-- The client as left by connection_response on respWorld. -/
def respAfter : HttpClient :=
  (http_connection_response respClient respWorld).1

/-- A handler in ConnectionRequest, and a world delivering a 2-byte
truncated SOCKS5 connect frame on the inbound socket. -/
def truncHandler : Socks5Handler :=
  { Socks5Handler.new 7 [proxy0] with state := .ConnectionRequest }

/-- World for the truncated frame: the drained request is [5, 1]. -/
def truncWorld : World :=
  { emptyWorld with inReads := [.chunk [5, 1], .wouldBlock] }

/-- A fresh handler about to read the method request. -/
def mrHandler : Socks5Handler :=
  Socks5Handler.new 3 [proxy0]

/-- A world delivering the classic 05 01 00 method request. -/
def mrWorld : World :=
  { emptyWorld with inReads := [.chunk [5, 1, 0], .wouldBlock] }

/-- A relaying client holding one byte, about to be handed an empty payload. -/
def routClient : HttpClient :=
  ⟨proxy0, Target.new, true, [3], 1, .RelayingOUT⟩

/-- The target produced by parsing the domain-form request domBuf below. -/
def domTarget : Target :=
  { ip := ascii "1.2.3.4", port := 443, domain := ascii "a.io" }

/-- A DNS table resolving a.io to 1.2.3.4. -/
def domDns : List (List UInt8 × List IpAddr) :=
  [(ascii "a.io", [.v4 1 2 3 4])]

/-- The SOCKS5 CONNECT request for a.io:443 by domain (ATYP 3). -/
def domBuf : List UInt8 :=
  [5, 1, 0, 3, 4, 97, 46, 105, 111, 1, 187]

/-! Helper lemmas: draining a freshly cleared buffer. -/

theorem readLoop_drain (d : List UInt8) (rest : List ReadEv)
    (h1 : 0 < d.length) (h2 : d.length ≤ 4096) :
    readLoop (.chunk d :: .wouldBlock :: rest) (List.replicate 4096 0) 0 =
      (rest, .drained d d.length) := by
  have hlen : (List.replicate 4096 (0 : UInt8)).length = 4096 := List.length_replicate 4096 0
  simp only [readLoop, hlen, Nat.sub_zero, min_eq_left h2, Nat.zero_add, List.take_zero,
    List.nil_append, List.take_length, List.drop_replicate]
  rw [if_neg (by omega : ¬ d.length = 0)]
  simp only [List.length_append, List.length_replicate]
  by_cases hd : d.length = 4096
  · rw [if_pos (by omega)]
    simp only [readLoop, trimBuf, List.length_append, List.length_replicate]
    rw [if_pos (by omega)]
    rw [show (4096 : Nat) - d.length = 0 from by omega]
    simp only [List.replicate_zero, List.append_nil]
    rw [List.take_left]
  · rw [if_neg (by omega)]
    simp only [readLoop, trimBuf, List.length_append, List.length_replicate]
    rw [if_pos (by omega)]
    rw [List.take_left]

theorem read_stream_drained (h : Socks5Handler) (w : World) (d : List UInt8)
    (rest : List ReadEv) (hw : w.inReads = .chunk d :: .wouldBlock :: rest)
    (h1 : 0 < d.length) (h2 : d.length ≤ 4096) :
    (h.clear_buffer).read_stream w =
      ({ h with buffer := d, size := d.length }, { w with inReads := rest }, .ok false) := by
  unfold Socks5Handler.read_stream Socks5Handler.clear_buffer
  rw [hw]
  rw [readLoop_drain d rest h1 h2]

theorem read_buffer_drained (c : HttpClient) (w : World) (d : List UInt8)
    (rest : List ReadEv) (hw : w.outReads = .chunk d :: .wouldBlock :: rest)
    (h1 : 0 < d.length) (h2 : d.length ≤ 4096) :
    (c.clear_buffer).read_buffer w =
      ({ c with buffer := d, size := d.length }, { w with outReads := rest }, .ok false) := by
  unfold HttpClient.read_buffer HttpClient.clear_buffer
  rw [hw]
  rw [readLoop_drain d rest h1 h2]

theorem socks_method_request_drained (h : Socks5Handler) (w : World) (d : List UInt8)
    (rest : List ReadEv) (hw : w.inReads = .chunk d :: .wouldBlock :: rest)
    (h1 : 0 < d.length) (h2 : d.length ≤ 4096) :
    socks_method_request h w =
      ({ h with
         buffer := d, size := d.length, state := (method_request_parse d d.length).1 },
       { w with inReads := rest }, .ok (method_request_parse d d.length).2) := by
  unfold socks_method_request
  rw [read_stream_drained h w d rest hw h1 h2]
  rfl

theorem socks_connection_request_drained_none (h : Socks5Handler) (w : World)
    (d : List UInt8) (rest : List ReadEv)
    (hw : w.inReads = .chunk d :: .wouldBlock :: rest)
    (h1 : 0 < d.length) (h2 : d.length ≤ 4096)
    (hp : socks_parse_request w.dns d d.length = none) :
    socks_connection_request h w = none := by
  unfold socks_connection_request
  rw [read_stream_drained h w d rest hw h1 h2]
  simp only [hp]

theorem http_connection_response_drained (c : HttpClient) (w : World) (d : List UInt8)
    (rest : List ReadEv) (hw : w.outReads = .chunk d :: .wouldBlock :: rest)
    (h1 : 0 < d.length) (h2 : d.length ≤ 4096) :
    http_connection_response c w =
      (match HttpClient.extract_statuscode { c with buffer := d, size := d.length } with
       | none => ({ c with buffer := d, size := d.length }, { w with outReads := rest }, .err)
       | some code =>
         if code ≠ 200 then
           ({ c with buffer := d, size := d.length }, { w with outReads := rest }, .ok true)
         else
           ({ c with buffer := d, size := d.length, state := .RelayingOUT },
            { w with outReads := rest }, .ok false)) := by
  unfold http_connection_response
  rw [read_buffer_drained c w d rest hw h1 h2]
  simp only
  rw [if_neg (by omega : ¬ d.length = 0)]
  rfl

theorem http_relay_in_drained (c : HttpClient) (w : World) (d : List UInt8)
    (rest : List ReadEv) (hw : w.outReads = .chunk d :: .wouldBlock :: rest)
    (h1 : 0 < d.length) (h2 : d.length ≤ 4096) :
    http_relay_in c w =
      ({ c with buffer := d, size := d.length, state := .RelayingOUT },
       { w with outReads := rest }, .ok false) := by
  unfold http_relay_in
  rw [read_buffer_drained c w d rest hw h1 h2]
  rfl

/-! C2: validation of the SOCKS5 method request. -/

theorem method_request_parse_total (b : List UInt8) (n : Nat) :
    method_request_parse b n = (.Closed, true) ∨
      method_request_parse b n = (.MethodResponse, false) := by
  unfold method_request_parse
  dsimp only
  split_ifs <;> simp

theorem method_request_parse_reject_iff (b : List UInt8) :
    method_request_parse b b.length = (.Closed, true) ↔ method_reject_spec b := by
  unfold method_request_parse method_reject_spec
  dsimp only
  split_ifs with hl hv hs hm
  · exact ⟨fun _ => Or.inl hl, fun _ => rfl⟩
  · exact ⟨fun _ => Or.inr (Or.inl hv), fun _ => rfl⟩
  · exact ⟨fun _ => Or.inr (Or.inr (Or.inl hs)), fun _ => rfl⟩
  · simp only [List.any_eq_true, beq_iff_eq] at hm
    obtain ⟨m, hmem, hm0⟩ := hm
    constructor
    · intro heq
      simp at heq
    · intro hr
      rcases hr with hx | hx | hx | hx
      · exact absurd hx hl
      · exact absurd hx hv
      · exact absurd hx hs
      · exact absurd hm0 (hx m hmem)
  · simp only [List.any_eq_true, beq_iff_eq] at hm
    push_neg at hm
    exact ⟨fun _ => Or.inr (Or.inr (Or.inr hm)), fun _ => rfl⟩

theorem method_request_parse_accept_iff (b : List UInt8) :
    method_request_parse b b.length = (.MethodResponse, false) ↔
      ¬ method_reject_spec b := by
  constructor
  · intro h2 hr
    have h1 := (method_request_parse_reject_iff b).2 hr
    rw [h2] at h1
    simp at h1
  · intro hnr
    rcases method_request_parse_total b b.length with hx | hx
    · exact absurd ((method_request_parse_reject_iff b).1 hx) hnr
    · exact hx

/-- C2: on a drained method-request buffer the handler moves to Closed with
done=true exactly when size < 3, or byte 0 is not 0x05, or size differs
from 2 + nmethod, or no method octet is 0x00 (method_reject_spec), and
otherwise moves to MethodResponse with done=false; the second conjunct ties
the full socks_method_request step to this decision on the drained bytes. -/
theorem c2_method_request_validation :
    (∀ buffer : List UInt8,
      (method_request_parse buffer buffer.length = (.Closed, true) ↔
        method_reject_spec buffer) ∧
      (method_request_parse buffer buffer.length = (.MethodResponse, false) ↔
        ¬ method_reject_spec buffer))
    ∧ (∀ (h : Socks5Handler) (w : World) (d : List UInt8) (rest : List ReadEv),
        w.inReads = .chunk d :: .wouldBlock :: rest → 0 < d.length → d.length ≤ 4096 →
        socks_method_request h w =
          ({ h with
             buffer := d, size := d.length, state := (method_request_parse d d.length).1 },
           { w with inReads := rest }, .ok (method_request_parse d d.length).2)) :=
  ⟨fun b => ⟨method_request_parse_reject_iff b, method_request_parse_accept_iff b⟩,
   socks_method_request_drained⟩

theorem c2_method_request_validation_witness :
    (mrWorld.inReads = .chunk [5, 1, 0] :: .wouldBlock :: [] ∧
      0 < ([5, 1, 0] : List UInt8).length ∧ ([5, 1, 0] : List UInt8).length ≤ 4096) ∧
    socks_method_request mrHandler mrWorld =
      ({ mrHandler with
         buffer := [5, 1, 0], size := ([5, 1, 0] : List UInt8).length,
         state := (method_request_parse [5, 1, 0] ([5, 1, 0] : List UInt8).length).1 },
       { mrWorld with inReads := [] },
       .ok (method_request_parse [5, 1, 0] ([5, 1, 0] : List UInt8).length).2) :=
  ⟨⟨rfl, by decide, by decide⟩,
   c2_method_request_validation.2 mrHandler mrWorld [5, 1, 0] [] rfl (by decide) (by decide)⟩

/-! C9: the connection-request parser is not total on truncated frames. -/

/-- C9: a drained 2-byte connect frame [5, 1] makes the parsing block read
byte 2 and byte 3 out of bounds (a Rust index panic, modelled none) instead
of moving the handler to Closed with done=true, both at the parse level and
through the whole socks_connection_request step on a concrete session. -/
theorem c9_truncated_connect_frame_panics :
    socks_parse_request truncWorld.dns [5, 1] 2 = none ∧
    socks_connection_request truncHandler truncWorld = none := by
  constructor
  · decide
  · exact socks_connection_request_drained_none truncHandler truncWorld [5, 1] []
      rfl (by decide) (by decide) (by decide)

/-! C10: an empty relay payload terminates the session. -/

/-- C10: handle in state RelayingOUT with an empty borrowed payload returns
done=true, leaves the world untouched (in particular nothing is submitted
to the upstream socket: outLog and outWrites are unchanged) and keeps the
state RelayingOUT rather than moving to RelayingIN. -/
theorem c10_relay_out_empty_payload_terminates :
    ∀ (c : HttpClient) (w : World), c.state = .RelayingOUT →
      c.handle w (some []) = some ({ c with buffer := [], size := 0 }, w, .ok true) := by
  intro c w hst
  unfold HttpClient.handle
  rw [hst]
  rfl

theorem c10_relay_out_empty_payload_terminates_witness :
    routClient.state = .RelayingOUT ∧
    routClient.handle emptyWorld (some []) =
      some ({ routClient with buffer := [], size := 0 }, emptyWorld, .ok true) :=
  ⟨rfl, c10_relay_out_empty_payload_terminates routClient emptyWorld rfl⟩

/-! C1: the CONNECT line and the original host. -/

theorem extract_buffer_eq (buffer out : List UInt8) (k start : Nat)
    (h : extract_buffer buffer k start = some out) :
    out = (buffer.drop start).take k := by
  unfold extract_buffer at h
  split_ifs at h
  injection h with h2
  exact h2.symm

theorem http_connection_request_spec (c : HttpClient) (w : World) :
    (http_connection_request c w).1.state = .ConnectionEstablished ∧
    (http_connection_request c w).1.target = c.target ∧
    (http_connection_request c w).2.1.outLog =
      w.outLog ++ [connectMsg c.target.domain c.target.port] := by
  unfold http_connection_request HttpClient.write_buffer HttpClient.set_state
    HttpClient.put_buff HttpClient.reset_buffer
  dsimp only
  cases hev : (popWrite w.outWrites).1 <;> simp only [hev] <;>
    first
      | (split_ifs <;> simp)
      | simp

theorem socks_parse_request_domain (dns : List (List UInt8 × List IpAddr))
    (buffer : List UInt8) (size : Nat) (st : Socks5State) (done : Bool) (t : Target)
    (heq : socks_parse_request dns buffer size = some (st, done, some t)) :
    (buffer.getD 3 0 = 1 → t.domain = ipv4Str ((buffer.drop 4).take 4) ∧ t.domain = t.ip) ∧
    (buffer.getD 3 0 = 4 → t.domain = t.ip) ∧
    (buffer.getD 3 0 = 3 → t.domain = (buffer.drop 5).take (buffer.getD 4 0).toNat) := by
  unfold socks_parse_request at heq
  split at heq
  case _ =>
    rename_i version cmd rsv atyp hg0 hg1 hg2 hg3
    have hgd : buffer.getD 3 0 = atyp := by
      rw [show buffer.getD 3 0 = (buffer.get? 3).getD 0 from rfl, hg3]
      rfl
    split_ifs at heq with h5 h1 h0 ha1 hs10 ha4 hs22 ha3 hs8
    all_goals try (solve | simp at heq)
    · split at heq
      · rename_i ip hi lo hext hg8 hg9
        simp only [Option.some.injEq, Prod.mk.injEq] at heq
        obtain ⟨hst2, hdone2, ht2⟩ := heq
        subst ht2
        have hip := extract_buffer_eq buffer ip 4 4 hext
        subst hip
        refine ⟨fun _ => ⟨rfl, rfl⟩, fun _ => rfl, fun hq => ?_⟩
        rw [hgd, ha1] at hq
        exact absurd hq (by decide)
      · simp at heq
    · split at heq
      · rename_i ip hi lo hext hg20 hg21
        simp only [Option.some.injEq, Prod.mk.injEq] at heq
        obtain ⟨hst2, hdone2, ht2⟩ := heq
        subst ht2
        refine ⟨fun hq => ?_, fun _ => rfl, fun hq => ?_⟩
        · rw [hgd, ha4] at hq
          exact absurd hq (by decide)
        · rw [hgd, ha4] at hq
          exact absurd hq (by decide)
      · simp at heq
    · split at heq
      · simp at heq
      · rename_i dlen hg4
        have hgd4 : buffer.getD 4 0 = dlen := by
          rw [show buffer.getD 4 0 = (buffer.get? 4).getD 0 from rfl, hg4]
          rfl
        split at heq
        · simp at heq
        · rename_i domain hext
          split_ifs at heq with hutf
          · split at heq
            · simp at heq
            · rename_i ips hdns
              split at heq
              · rename_i hi lo hgp1 hgp2
                split at heq
                · simp at heq
                · rename_i ip hhead
                  simp only [Option.some.injEq, Prod.mk.injEq] at heq
                  obtain ⟨hst2, hdone2, ht2⟩ := heq
                  subst ht2
                  have hdom := extract_buffer_eq buffer domain dlen.toNat 5 hext
                  subst hdom
                  refine ⟨fun hq => ?_, fun hq => ?_, fun _ => ?_⟩
                  · rw [hgd, ha3] at hq
                    exact absurd hq (by decide)
                  · rw [hgd, ha3] at hq
                    exact absurd hq (by decide)
                  · rw [hgd4]
              · simp at heq
          · simp at heq
  case _ => simp at heq

/-- C1: in state ConnectionRequest the HTTP client hands the upstream write
exactly the bytes of CONNECT host port HTTP/1.1 with the keep-alive and
Host headers (connectMsg target.domain target.port) and then moves to
ConnectionEstablished with its target unchanged; and the request parse sets
target.domain to the dotted IPv4 string of bytes 4..8 for ATYP 1 (equal to
target.ip), to the IP string itself for ATYP 4, and to the verbatim domain
bytes of the request for ATYP 3 independently of what the resolver
answered, which only lands in target.ip. -/
theorem c1_connect_line_uses_original_host :
    (∀ (c : HttpClient) (w : World), c.state = .ConnectionRequest →
      ∃ c2 w2 r, c.handle w none = some (c2, w2, r) ∧
        w2.outLog = w.outLog ++ [connectMsg c.target.domain c.target.port] ∧
        c2.state = .ConnectionEstablished ∧ c2.target = c.target)
    ∧ (∀ (dns : List (List UInt8 × List IpAddr)) (buffer : List UInt8) (size : Nat)
        (st : Socks5State) (done : Bool) (t : Target),
        socks_parse_request dns buffer size = some (st, done, some t) →
        (buffer.getD 3 0 = 1 → t.domain = ipv4Str ((buffer.drop 4).take 4) ∧ t.domain = t.ip) ∧
        (buffer.getD 3 0 = 4 → t.domain = t.ip) ∧
        (buffer.getD 3 0 = 3 → t.domain = (buffer.drop 5).take (buffer.getD 4 0).toNat)) := by
  constructor
  · intro c w hst
    refine ⟨(http_connection_request c w).1, (http_connection_request c w).2.1,
      squash (http_connection_request c w).2.2, ?_, ?_, ?_, ?_⟩
    · unfold HttpClient.handle
      rw [hst]
    · exact (http_connection_request_spec c w).2.2
    · exact (http_connection_request_spec c w).1
    · exact (http_connection_request_spec c w).2.1
  · intro dns buffer size st done t heq
    exact socks_parse_request_domain dns buffer size st done t heq

theorem c1_connect_line_uses_original_host_witness :
    ((HttpClient.new proxy0 domTarget).state = .ConnectionRequest ∧
      (∃ c2 w2 r, (HttpClient.new proxy0 domTarget).handle emptyWorld none = some (c2, w2, r) ∧
        w2.outLog = emptyWorld.outLog ++
          [connectMsg (HttpClient.new proxy0 domTarget).target.domain
            (HttpClient.new proxy0 domTarget).target.port] ∧
        c2.state = .ConnectionEstablished ∧
        c2.target = (HttpClient.new proxy0 domTarget).target))
    ∧ (socks_parse_request domDns domBuf 11 =
        some (.ClientConnectionRequest, false, some domTarget) ∧
      ((domBuf.getD 3 0 = 1 →
          domTarget.domain = ipv4Str ((domBuf.drop 4).take 4) ∧
          domTarget.domain = domTarget.ip) ∧
        (domBuf.getD 3 0 = 4 → domTarget.domain = domTarget.ip) ∧
        (domBuf.getD 3 0 = 3 →
          domTarget.domain = (domBuf.drop 5).take (domBuf.getD 4 0).toNat))) :=
  ⟨⟨rfl, c1_connect_line_uses_original_host.1 (HttpClient.new proxy0 domTarget) emptyWorld rfl⟩,
   ⟨by decide, c1_connect_line_uses_original_host.2 domDns domBuf 11
      .ClientConnectionRequest false domTarget (by decide)⟩⟩

/-! C3: only the status bytes at offsets 9..12 decide the session. -/

theorem take3_drop9 (d : List UInt8) (h : 12 ≤ d.length) :
    (d.drop 9).take 3 = [d.getD 9 0, d.getD 10 0, d.getD 11 0] := by
  have h9 : 9 < d.length := by omega
  have h10 : 10 < d.length := by omega
  have h11 : 11 < d.length := by omega
  rw [List.drop_eq_getElem_cons h9]
  rw [show (9 : Nat) + 1 = 10 from rfl]
  rw [List.drop_eq_getElem_cons h10]
  rw [show (10 : Nat) + 1 = 11 from rfl]
  rw [List.drop_eq_getElem_cons h11]
  simp only [List.take_succ_cons, List.take_zero, List.getD_eq_getElem, h9, h10, h11]

/-- C3: extract_statuscode reads nothing of the drained reply but the size
check and the three bytes at offsets 9..12 (first conjunct), and on a
drained reply whose bytes 9..12 are ASCII digits the handle call in state
ConnectionEstablished goes to RelayingOUT with done=false exactly when the
three digits read 200, and signals done (state unchanged) otherwise. -/
theorem c3_status_code_gate :
    (∀ c1 c2 : HttpClient, c1.size = c2.size →
      (c1.buffer.drop 9).take 3 = (c2.buffer.drop 9).take 3 →
      c1.extract_statuscode = c2.extract_statuscode)
    ∧ (∀ (c : HttpClient) (w : World) (d : List UInt8) (rest : List ReadEv),
        c.state = .ConnectionEstablished →
        w.outReads = .chunk d :: .wouldBlock :: rest →
        12 ≤ d.length → d.length ≤ 4096 →
        48 ≤ (d.getD 9 0).toNat → (d.getD 9 0).toNat ≤ 57 →
        48 ≤ (d.getD 10 0).toNat → (d.getD 10 0).toNat ≤ 57 →
        48 ≤ (d.getD 11 0).toNat → (d.getD 11 0).toNat ≤ 57 →
        ∃ c2 w2 r, c.handle w none = some (c2, w2, r) ∧
          ((100 * ((d.getD 9 0).toNat - 48) + 10 * ((d.getD 10 0).toNat - 48) +
              ((d.getD 11 0).toNat - 48) = 200) →
            c2.state = .RelayingOUT ∧ r = .ok false) ∧
          ((100 * ((d.getD 9 0).toNat - 48) + 10 * ((d.getD 10 0).toNat - 48) +
              ((d.getD 11 0).toNat - 48) ≠ 200) →
            c2.state = .ConnectionEstablished ∧ r = .ok true)) := by
  constructor
  · intro c1 c2 hsz hb
    unfold HttpClient.extract_statuscode
    rw [hsz, hb]
  · intro c w d rest hst hw h12 h4096 hd9a hd9b hd10a hd10b hd11a hd11b
    have h1 : 0 < d.length := by omega
    have hcr := http_connection_response_drained c w d rest hw h1 h4096
    have hsc : HttpClient.extract_statuscode { c with buffer := d, size := d.length } =
        some (100 * ((d.getD 9 0).toNat - 48) + 10 * ((d.getD 10 0).toNat - 48) +
          ((d.getD 11 0).toNat - 48)) := by
      unfold HttpClient.extract_statuscode
      dsimp only
      rw [if_neg (by omega : ¬ d.length < 12)]
      rw [take3_drop9 d h12]
      simp only [List.foldl]
      exact congrArg some (by omega)
    rw [hsc] at hcr
    refine ⟨(http_connection_response c w).1, (http_connection_response c w).2.1,
      squash (http_connection_response c w).2.2, ?_, ?_, ?_⟩
    · unfold HttpClient.handle
      rw [hst]
    · intro hcode
      rw [hcode] at hcr
      dsimp only at hcr
      rw [if_neg (by decide : ¬ (200 : Nat) ≠ 200)] at hcr
      rw [hcr]
      exact ⟨rfl, rfl⟩
    · intro hcode
      dsimp only at hcr
      rw [if_pos hcode] at hcr
      rw [hcr]
      exact ⟨hst, rfl⟩

theorem c3_status_code_gate_witness :
    (respClient.state = .ConnectionEstablished ∧
      respWorld.outReads = .chunk respBytes :: .wouldBlock :: [] ∧
      12 ≤ respBytes.length ∧ respBytes.length ≤ 4096 ∧
      48 ≤ (respBytes.getD 9 0).toNat ∧ (respBytes.getD 9 0).toNat ≤ 57 ∧
      48 ≤ (respBytes.getD 10 0).toNat ∧ (respBytes.getD 10 0).toNat ≤ 57 ∧
      48 ≤ (respBytes.getD 11 0).toNat ∧ (respBytes.getD 11 0).toNat ≤ 57) ∧
    respClient.extract_statuscode = respClient.extract_statuscode ∧
    (∃ c2 w2 r, respClient.handle respWorld none = some (c2, w2, r) ∧
      ((100 * ((respBytes.getD 9 0).toNat - 48) + 10 * ((respBytes.getD 10 0).toNat - 48) +
          ((respBytes.getD 11 0).toNat - 48) = 200) →
        c2.state = .RelayingOUT ∧ r = .ok false) ∧
      ((100 * ((respBytes.getD 9 0).toNat - 48) + 10 * ((respBytes.getD 10 0).toNat - 48) +
          ((respBytes.getD 11 0).toNat - 48) ≠ 200) →
        c2.state = .ConnectionEstablished ∧ r = .ok true)) :=
  ⟨⟨rfl, rfl, by decide, by decide, by decide, by decide, by decide, by decide,
    by decide, by decide⟩,
   c3_status_code_gate.1 respClient respClient rfl rfl,
   c3_status_code_gate.2 respClient respWorld respBytes [] rfl rfl (by decide) (by decide)
     (by decide) (by decide) (by decide) (by decide) (by decide) (by decide)⟩

/-! C4: teardown removes only the event token. -/

/-- C4 counterexample: with handler key 0, inbound token 10 and child token
11 registered, a done=true on the inbound token leaves the child token in
the child-to-parent table, and an Err from handle aborts serve without any
removal — the claim that both tokens leave both tables in that iteration is
false. -/
theorem c4_counterexample_stale_child_token :
    serve_dispatch ⟨[0], [(10, 0)], [(11, 10)]⟩ 10 (.ok true) =
      some ⟨[], [], [(11, 10)]⟩ ∧
    assocFind [(11, 10)] 11 = some 10 ∧
    serve_dispatch ⟨[0], [(10, 0)], [(11, 10)]⟩ 10 .err = none := by
  decide

/-- C4 amended: when handle reports done=true the dispatch iteration
removes the handler key from the slab and the event token (only) from both
lookup tables; when handle returns an error, serve propagates it out of the
loop without removing anything; done=false changes nothing. -/
theorem c4_teardown_removes_event_token :
    ∀ (st : ServerTables) (tok key : Nat),
      lookupKey st tok = some key → st.slabKeys.contains key →
      (serve_dispatch st tok (.ok true) =
        some { slabKeys := st.slabKeys.filter (fun k => k != key),
               handler_map := assocRemove st.handler_map tok,
               subtoken := assocRemove st.subtoken tok }) ∧
      serve_dispatch st tok .err = none ∧
      serve_dispatch st tok (.ok false) = some st := by
  intro st tok key hk hs
  unfold serve_dispatch
  rw [hk]
  dsimp only
  rw [if_pos hs, if_pos hs, if_pos hs]
  exact ⟨rfl, rfl, rfl⟩

theorem c4_teardown_removes_event_token_witness :
    (lookupKey ⟨[0], [(10, 0)], [(11, 10)]⟩ 10 = some 0 ∧
      (ServerTables.mk [0] [(10, 0)] [(11, 10)]).slabKeys.contains 0) ∧
    ((serve_dispatch ⟨[0], [(10, 0)], [(11, 10)]⟩ 10 (.ok true) =
        some { slabKeys := ([0] : List Nat).filter (fun k => k != 0),
               handler_map := assocRemove [(10, 0)] 10,
               subtoken := assocRemove [(11, 10)] 10 }) ∧
      serve_dispatch ⟨[0], [(10, 0)], [(11, 10)]⟩ 10 .err = none ∧
      serve_dispatch ⟨[0], [(10, 0)], [(11, 10)]⟩ 10 (.ok false) =
        some ⟨[0], [(10, 0)], [(11, 10)]⟩) :=
  ⟨⟨by decide, by decide⟩,
   c4_teardown_removes_event_token ⟨[0], [(10, 0)], [(11, 10)]⟩ 10 0 (by decide) (by decide)⟩

theorem socks_writable_ccr (h : Socks5Handler) (tok uniq : Nat) (sub : List (Nat × Nat))
    (w : World) (hst : h.state = .ClientConnectionRequest) :
    ∀ bo, socks_writable h tok uniq sub w = some bo →
      bo.sess.state = .ClientConnectionResponse := by
  intro bo hbo
  unfold socks_writable at hbo
  rw [hst] at hbo
  rw [if_neg (by decide : ¬ (Socks5State.ClientConnectionRequest = .MethodResponse))] at hbo
  rw [if_pos (rfl : Socks5State.ClientConnectionRequest = .ClientConnectionRequest)] at hbo
  rcases hc : h.client with _ | c <;> rw [hc] at hbo <;> dsimp only at hbo
  · cases hbo
  · rcases hch : c.handle w none with _ | ⟨c1, w1, res⟩ <;> rw [hch] at hbo <;>
      dsimp only at hbo
    · cases hbo
    · split_ifs at hbo <;> (injection hbo with hbo2; rw [← hbo2]; rfl)

theorem socks_readable_ccrsp (h : Socks5Handler) (tok uniq : Nat) (sub : List (Nat × Nat))
    (w : World) (hst : h.state = .ClientConnectionResponse) :
    ∀ bo, socks_readable h tok uniq sub w = some bo →
      bo.sess.state = .ConnectionResponse := by
  intro bo hbo
  unfold socks_readable at hbo
  rw [hst] at hbo
  rw [if_neg (by simp : ¬ (Socks5State.ClientConnectionResponse = .MethodRequest ∧
    tok = h.token))] at hbo
  rw [if_neg (by simp : ¬ (Socks5State.ClientConnectionResponse = .ConnectionRequest ∧
    tok = h.token))] at hbo
  rw [if_pos (rfl : Socks5State.ClientConnectionResponse = .ClientConnectionResponse)] at hbo
  rcases hc : h.client with _ | c <;> rw [hc] at hbo <;> dsimp only at hbo
  · cases hbo
  · rcases hch : c.handle w none with _ | ⟨c1, w1, res⟩ <;> rw [hch] at hbo <;>
      dsimp only at hbo
    · cases hbo
    · split_ifs at hbo <;> (injection hbo with hbo2; rw [← hbo2]; rfl)

theorem handle_writable_phase (h : Socks5Handler) (tok uniq : Nat)
    (sub : List (Nat × Nat)) (w : World) :
    h.handle tok uniq sub false true w =
      (match socks_writable h tok uniq sub w with
       | none => none
       | some (.done h2 u2 s2 w2 r) => some (h2, u2, s2, w2, r)
       | some (.next h2 u2 s2 w2) =>
         if h2.state = .Relaying then
           (if tok ≠ h2.token then
             match socks_relay_out h2 w2 with
             | none => none
             | some (h3, w3, r) => some (h3, u2, s2, w3, r)
           else
             match socks_relay_in h2 w2 with
             | none => none
             | some (h3, w3, r) => some (h3, u2, s2, w3, r))
         else some (h2, u2, s2, w2, .ok false)) := rfl

theorem handle_readable_phase (h : Socks5Handler) (tok uniq : Nat)
    (sub : List (Nat × Nat)) (w : World) :
    h.handle tok uniq sub true false w =
      (match socks_readable h tok uniq sub w with
       | none => none
       | some (.done h2 u2 s2 w2 r) => some (h2, u2, s2, w2, r)
       | some (.next h2 u2 s2 w2) =>
         if h2.state = .Relaying then
           (if tok ≠ h2.token then
             match socks_relay_out h2 w2 with
             | none => none
             | some (h3, w3, r) => some (h3, u2, s2, w3, r)
           else
             match socks_relay_in h2 w2 with
             | none => none
             | some (h3, w3, r) => some (h3, u2, s2, w3, r))
         else some (h2, u2, s2, w2, .ok false)) := rfl

/-- C5 amended: in ClientConnectionRequest (writable) and
ClientConnectionResponse (readable) the handler's dispatch is independent
of the token the event carries, and the delegation branch runs, stepping
the handler state to ClientConnectionResponse resp. ConnectionResponse;
only the MethodRequest/ConnectionRequest readable arms and the Relaying
direction compare tokens. -/
theorem c5_delegation_ignores_token :
    (∀ (h : Socks5Handler) (tok tok2 uniq : Nat) (sub : List (Nat × Nat)) (w : World),
      h.state = .ClientConnectionRequest →
      h.handle tok uniq sub false true w = h.handle tok2 uniq sub false true w)
    ∧ (∀ (h : Socks5Handler) (tok uniq : Nat) (sub : List (Nat × Nat)) (w : World) out,
        h.state = .ClientConnectionRequest →
        h.handle tok uniq sub false true w = some out →
        out.1.state = .ClientConnectionResponse)
    ∧ (∀ (h : Socks5Handler) (tok tok2 uniq : Nat) (sub : List (Nat × Nat)) (w : World),
        h.state = .ClientConnectionResponse →
        h.handle tok uniq sub true false w = h.handle tok2 uniq sub true false w)
    ∧ (∀ (h : Socks5Handler) (tok uniq : Nat) (sub : List (Nat × Nat)) (w : World) out,
        h.state = .ClientConnectionResponse →
        h.handle tok uniq sub true false w = some out →
        out.1.state = .ConnectionResponse) := by
  refine ⟨?_, ?_, ?_, ?_⟩
  · intro h tok tok2 uniq sub w hst
    rw [handle_writable_phase h tok uniq sub w, handle_writable_phase h tok2 uniq sub w]
    rw [show socks_writable h tok uniq sub w = socks_writable h tok2 uniq sub w from rfl]
    rcases hbo : socks_writable h tok2 uniq sub w with _ | bo
    · rfl
    · rcases bo with ⟨h1, u1, s1, w1, r⟩ | ⟨h1, u1, s1, w1⟩
      · rfl
      · have hst1 : h1.state = .ClientConnectionResponse :=
          socks_writable_ccr h tok2 uniq sub w hst (.next h1 u1 s1 w1) hbo
        have hnr : ¬ (h1.state = Socks5State.Relaying) := by
          rw [hst1]
          decide
        dsimp only
        rw [if_neg hnr, if_neg hnr]
  · intro h tok uniq sub w out hst hout
    rw [handle_writable_phase h tok uniq sub w] at hout
    rcases hbo : socks_writable h tok uniq sub w with _ | bo
    · rw [hbo] at hout
      exact Option.noConfusion hout
    · rw [hbo] at hout
      rcases bo with ⟨h1, u1, s1, w1, r⟩ | ⟨h1, u1, s1, w1⟩
      · have hst1 : h1.state = .ClientConnectionResponse :=
          socks_writable_ccr h tok uniq sub w hst (.done h1 u1 s1 w1 r) hbo
        injection hout with h2
        rw [← h2]
        exact hst1
      · have hst1 : h1.state = .ClientConnectionResponse :=
          socks_writable_ccr h tok uniq sub w hst (.next h1 u1 s1 w1) hbo
        dsimp only at hout
        rw [if_neg (show ¬ (h1.state = Socks5State.Relaying) from by rw [hst1]; decide)] at hout
        injection hout with h2
        rw [← h2]
        exact hst1
  · intro h tok tok2 uniq sub w hst
    rw [handle_readable_phase h tok uniq sub w, handle_readable_phase h tok2 uniq sub w]
    have he : socks_readable h tok uniq sub w = socks_readable h tok2 uniq sub w := by
      unfold socks_readable
      rw [hst]
      rw [if_neg (by simp : ¬ (Socks5State.ClientConnectionResponse = .MethodRequest ∧
        tok = h.token))]
      rw [if_neg (by simp : ¬ (Socks5State.ClientConnectionResponse = .MethodRequest ∧
        tok2 = h.token))]
      rw [if_neg (by simp : ¬ (Socks5State.ClientConnectionResponse = .ConnectionRequest ∧
        tok = h.token))]
      rw [if_neg (by simp : ¬ (Socks5State.ClientConnectionResponse = .ConnectionRequest ∧
        tok2 = h.token))]
    rw [he]
    rcases hbo : socks_readable h tok2 uniq sub w with _ | bo
    · rfl
    · rcases bo with ⟨h1, u1, s1, w1, r⟩ | ⟨h1, u1, s1, w1⟩
      · rfl
      · have hst1 : h1.state = .ConnectionResponse :=
          socks_readable_ccrsp h tok2 uniq sub w hst (.next h1 u1 s1 w1) hbo
        have hnr : ¬ (h1.state = Socks5State.Relaying) := by
          rw [hst1]
          decide
        dsimp only
        rw [if_neg hnr, if_neg hnr]
  · intro h tok uniq sub w out hst hout
    rw [handle_readable_phase h tok uniq sub w] at hout
    rcases hbo : socks_readable h tok uniq sub w with _ | bo
    · rw [hbo] at hout
      exact Option.noConfusion hout
    · rw [hbo] at hout
      rcases bo with ⟨h1, u1, s1, w1, r⟩ | ⟨h1, u1, s1, w1⟩
      · have hst1 : h1.state = .ConnectionResponse :=
          socks_readable_ccrsp h tok uniq sub w hst (.done h1 u1 s1 w1 r) hbo
        injection hout with h2
        rw [← h2]
        exact hst1
      · have hst1 : h1.state = .ConnectionResponse :=
          socks_readable_ccrsp h tok uniq sub w hst (.next h1 u1 s1 w1) hbo
        dsimp only at hout
        rw [if_neg (show ¬ (h1.state = Socks5State.Relaying) from by rw [hst1]; decide)] at hout
        injection hout with h2
        rw [← h2]
        exact hst1

/-- C5 counterexample: in state ClientConnectionRequest a writable event
carrying the inbound token (10 = self.token) is still delegated to the
child HTTP client: the child advances to ConnectionEstablished and the
CONNECT line is submitted upstream, refuting the claim that delegation
happens only on the child token. -/
theorem c5_counterexample_inbound_token_delegates :
    ccrHandler.token = 10 ∧
    (ccrHandler.handle 10 0 [] false true emptyWorld).map
        (fun r => (r.1.state, r.1.client.map (fun c => c.state), r.2.2.2.1.outLog)) =
      some (.ClientConnectionResponse, some .ConnectionEstablished,
        [connectMsg Target.new.domain Target.new.port]) := by
  constructor
  · rfl
  · decide

theorem c5_delegation_ignores_token_witness :
    (ccrHandler.state = .ClientConnectionRequest ∧
      ccrspHandler.state = .ClientConnectionResponse) ∧
    (ccrHandler.handle 10 0 [] false true emptyWorld =
      ccrHandler.handle 999 0 [] false true emptyWorld) ∧
    ((ccrHandler.handle 10 0 [] false true emptyWorld).map (fun r => r.1.state) =
      some .ClientConnectionResponse) ∧
    (ccrspHandler.handle 11 0 [] true false emptyWorld =
      ccrspHandler.handle 10 0 [] true false emptyWorld) ∧
    ((ccrspHandler.handle 11 0 [] true false emptyWorld).map (fun r => r.1.state) =
      some .ConnectionResponse) := by
  refine ⟨⟨rfl, rfl⟩,
    c5_delegation_ignores_token.1 ccrHandler 10 999 0 [] emptyWorld rfl, ?_,
    c5_delegation_ignores_token.2.2.1 ccrspHandler 11 10 0 [] emptyWorld rfl, ?_⟩
  · have hsome : (ccrHandler.handle 10 0 [] false true emptyWorld).isSome = true := by
      decide
    rcases hres : ccrHandler.handle 10 0 [] false true emptyWorld with _ | out
    · rw [hres] at hsome
      cases hsome
    · rw [Option.map_some']
      exact congrArg some
        (c5_delegation_ignores_token.2.1 ccrHandler 10 0 [] emptyWorld out rfl hres)
  · have hsome : (ccrspHandler.handle 11 0 [] true false emptyWorld).isSome = true := by
      decide
    rcases hres : ccrspHandler.handle 11 0 [] true false emptyWorld with _ | out
    · rw [hres] at hsome
      cases hsome
    · rw [Option.map_some']
      exact congrArg some
        (c5_delegation_ignores_token.2.2.2 ccrspHandler 11 0 [] emptyWorld out rfl hres)


/-! C8: transient I/O handling. -/

/-- C8 counterexample: an interrupted write is not swallowed — write_stream
moves the handler to Closed and reports done=true, so the session does not
stay open for a retry, refuting the claim for the write operations. -/
theorem c8_counterexample_interrupted_write_closes :
    ((Socks5Handler.new 1 []).write_stream
      { emptyWorld with inWrites := [.interrupted] }).1.state = .Closed ∧
    ((Socks5Handler.new 1 []).write_stream
      { emptyWorld with inWrites := [.interrupted] }).2.2 = .ok true := by
  constructor <;> rfl

/-- C8 amended: interrupted is swallowed by the read loops (the event is
skipped and reading continues) and would-block ends a read with done=false,
state and size untouched; on writes would-block is swallowed (done=false,
machine unchanged), but interrupted closes the machine and reports
done=true, for both the SOCKS5 handler and the HTTP client. -/
theorem c8_transient_io :
    (∀ (h : Socks5Handler) (w : World) (evs : List ReadEv),
      w.inReads = .interrupted :: evs →
      h.read_stream w = h.read_stream { w with inReads := evs }) ∧
    (∀ (c : HttpClient) (w : World) (evs : List ReadEv),
      w.outReads = .interrupted :: evs →
      c.read_buffer w = c.read_buffer { w with outReads := evs }) ∧
    (∀ (h : Socks5Handler) (w : World) (evs : List ReadEv),
      w.inReads = .wouldBlock :: evs →
      (h.read_stream w).2.2 = .ok false ∧ (h.read_stream w).1.state = h.state ∧
      (h.read_stream w).1.size = h.size) ∧
    (∀ (c : HttpClient) (w : World) (evs : List ReadEv),
      w.outReads = .wouldBlock :: evs →
      (c.read_buffer w).2.2 = .ok false ∧ (c.read_buffer w).1.state = c.state ∧
      (c.read_buffer w).1.size = c.size) ∧
    (∀ (h : Socks5Handler) (w : World) (evs : List WriteEv),
      w.inWrites = .wouldBlock :: evs →
      h.write_stream w =
        (h, { w with inWrites := evs, inLog := w.inLog ++ [h.buffer] }, .ok false)) ∧
    (∀ (c : HttpClient) (w : World) (evs : List WriteEv),
      w.outWrites = .wouldBlock :: evs →
      c.write_buffer w =
        (c, { w with outWrites := evs, outLog := w.outLog ++ [c.buffer] }, .ok false)) ∧
    (∀ (h : Socks5Handler) (w : World) (evs : List WriteEv),
      w.inWrites = .interrupted :: evs →
      h.write_stream w =
        ({ h with state := .Closed },
         { w with inWrites := evs, inLog := w.inLog ++ [h.buffer] }, .ok true)) ∧
    (∀ (c : HttpClient) (w : World) (evs : List WriteEv),
      w.outWrites = .interrupted :: evs →
      c.write_buffer w =
        ({ c with state := .Closed },
         { w with outWrites := evs, outLog := w.outLog ++ [c.buffer] }, .ok true)) := by
  refine ⟨?_, ?_, ?_, ?_, ?_, ?_, ?_, ?_⟩
  · intro h w evs hw
    unfold Socks5Handler.read_stream
    rw [hw]
    rfl
  · intro c w evs hw
    unfold HttpClient.read_buffer
    rw [hw]
    rfl
  · intro h w evs hw
    unfold Socks5Handler.read_stream
    rw [hw]
    exact ⟨rfl, rfl, rfl⟩
  · intro c w evs hw
    unfold HttpClient.read_buffer
    rw [hw]
    exact ⟨rfl, rfl, rfl⟩
  · intro h w evs hw
    unfold Socks5Handler.write_stream
    rw [hw]
    rfl
  · intro c w evs hw
    unfold HttpClient.write_buffer
    rw [hw]
    rfl
  · intro h w evs hw
    unfold Socks5Handler.write_stream
    rw [hw]
    rfl
  · intro c w evs hw
    unfold HttpClient.write_buffer
    rw [hw]
    rfl

theorem c8_transient_io_witness :
    ((Socks5Handler.new 1 []).read_stream { emptyWorld with inReads := [.interrupted] } =
      (Socks5Handler.new 1 []).read_stream
        { { emptyWorld with inReads := [.interrupted] } with inReads := [] }) ∧
    ((HttpClient.new proxy0 Target.new).read_buffer
        { emptyWorld with outReads := [.interrupted] } =
      (HttpClient.new proxy0 Target.new).read_buffer
        { { emptyWorld with outReads := [.interrupted] } with outReads := [] }) ∧
    (((Socks5Handler.new 1 []).read_stream
        { emptyWorld with inReads := [.wouldBlock] }).2.2 = .ok false ∧
      ((Socks5Handler.new 1 []).read_stream
        { emptyWorld with inReads := [.wouldBlock] }).1.state = (Socks5Handler.new 1 []).state ∧
      ((Socks5Handler.new 1 []).read_stream
        { emptyWorld with inReads := [.wouldBlock] }).1.size = (Socks5Handler.new 1 []).size) ∧
    (((HttpClient.new proxy0 Target.new).read_buffer
        { emptyWorld with outReads := [.wouldBlock] }).2.2 = .ok false ∧
      ((HttpClient.new proxy0 Target.new).read_buffer
        { emptyWorld with outReads := [.wouldBlock] }).1.state =
          (HttpClient.new proxy0 Target.new).state ∧
      ((HttpClient.new proxy0 Target.new).read_buffer
        { emptyWorld with outReads := [.wouldBlock] }).1.size =
          (HttpClient.new proxy0 Target.new).size) ∧
    ((Socks5Handler.new 1 []).write_stream { emptyWorld with inWrites := [.wouldBlock] } =
      ((Socks5Handler.new 1 []),
        { { emptyWorld with inWrites := [.wouldBlock] } with
          inWrites := [],
          inLog := ({ emptyWorld with inWrites := [.wouldBlock] } : World).inLog ++
            [(Socks5Handler.new 1 []).buffer] }, .ok false)) ∧
    ((HttpClient.new proxy0 Target.new).write_buffer
        { emptyWorld with outWrites := [.wouldBlock] } =
      ((HttpClient.new proxy0 Target.new),
        { { emptyWorld with outWrites := [.wouldBlock] } with
          outWrites := [],
          outLog := ({ emptyWorld with outWrites := [.wouldBlock] } : World).outLog ++
            [(HttpClient.new proxy0 Target.new).buffer] }, .ok false)) ∧
    ((Socks5Handler.new 1 []).write_stream { emptyWorld with inWrites := [.interrupted] } =
      ({ Socks5Handler.new 1 [] with state := .Closed },
        { { emptyWorld with inWrites := [.interrupted] } with
          inWrites := [],
          inLog := ({ emptyWorld with inWrites := [.interrupted] } : World).inLog ++
            [(Socks5Handler.new 1 []).buffer] }, .ok true)) ∧
    ((HttpClient.new proxy0 Target.new).write_buffer
        { emptyWorld with outWrites := [.interrupted] } =
      ({ HttpClient.new proxy0 Target.new with state := .Closed },
        { { emptyWorld with outWrites := [.interrupted] } with
          outWrites := [],
          outLog := ({ emptyWorld with outWrites := [.interrupted] } : World).outLog ++
            [(HttpClient.new proxy0 Target.new).buffer] }, .ok true)) :=
  ⟨c8_transient_io.1 (Socks5Handler.new 1 []) { emptyWorld with inReads := [.interrupted] } [] rfl,
   c8_transient_io.2.1 (HttpClient.new proxy0 Target.new)
     { emptyWorld with outReads := [.interrupted] } [] rfl,
   c8_transient_io.2.2.1 (Socks5Handler.new 1 [])
     { emptyWorld with inReads := [.wouldBlock] } [] rfl,
   c8_transient_io.2.2.2.1 (HttpClient.new proxy0 Target.new)
     { emptyWorld with outReads := [.wouldBlock] } [] rfl,
   c8_transient_io.2.2.2.2.1 (Socks5Handler.new 1 [])
     { emptyWorld with inWrites := [.wouldBlock] } [] rfl,
   c8_transient_io.2.2.2.2.2.1 (HttpClient.new proxy0 Target.new)
     { emptyWorld with outWrites := [.wouldBlock] } [] rfl,
   c8_transient_io.2.2.2.2.2.2.1 (Socks5Handler.new 1 [])
     { emptyWorld with inWrites := [.interrupted] } [] rfl,
   c8_transient_io.2.2.2.2.2.2.2 (HttpClient.new proxy0 Target.new)
     { emptyWorld with outWrites := [.interrupted] } [] rfl⟩


/-! C7: the buffer-size invariant. -/

theorem trimBuf_inv (buffer : List UInt8) (size : Nat) (h : size ≤ buffer.length) :
    size ≤ (trimBuf buffer size).length := by
  unfold trimBuf
  split_ifs with hne
  · simp only [List.length_take]
    omega
  · exact h

theorem readLoop_inv (evs : List ReadEv) :
    ∀ (buffer : List UInt8) (size : Nat), size ≤ buffer.length →
    ∀ evs2 ro, readLoop evs buffer size = (evs2, ro) →
      (match ro with
       | .closed b s => s ≤ b.length
       | .drained b s => s ≤ b.length
       | .ioErr b s => s ≤ b.length) := by
  induction evs with
  | nil =>
    intro buffer size h evs2 ro hr
    unfold readLoop at hr
    injection hr with hr1 hr2
    rw [← hr2]
    exact trimBuf_inv buffer size h
  | cons e rest ih =>
    intro buffer size h evs2 ro hr
    cases e with
    | wouldBlock =>
      unfold readLoop at hr
      injection hr with hr1 hr2
      rw [← hr2]
      exact trimBuf_inv buffer size h
    | interrupted =>
      unfold readLoop at hr
      exact ih buffer size h evs2 ro hr
    | fatal =>
      unfold readLoop at hr
      injection hr with hr1 hr2
      rw [← hr2]
      exact h
    | chunk d =>
      unfold readLoop at hr
      dsimp only at hr
      by_cases hn : min d.length (buffer.length - size) = 0
      · rw [if_pos hn] at hr
        injection hr with hr1 hr2
        rw [← hr2]
        exact h
      · rw [if_neg hn] at hr
        have hlen : (buffer.take size ++ d.take (min d.length (buffer.length - size)) ++
            buffer.drop (size + min d.length (buffer.length - size))).length =
            buffer.length := by
          simp only [List.length_append, List.length_take, List.length_drop]
          omega
        by_cases hg : size + min d.length (buffer.length - size) =
            (buffer.take size ++ d.take (min d.length (buffer.length - size)) ++
              buffer.drop (size + min d.length (buffer.length - size))).length
        · rw [if_pos hg] at hr
          refine ih _ _ ?_ evs2 ro hr
          simp only [List.length_append, List.length_replicate, List.length_take,
            List.length_drop] at hg ⊢
          omega
        · rw [if_neg hg] at hr
          refine ih _ _ ?_ evs2 ro hr
          rw [hlen]
          omega

theorem read_stream_inv (h : Socks5Handler) (w : World) (hs : h.size ≤ h.buffer.length) :
    (h.read_stream w).1.size ≤ (h.read_stream w).1.buffer.length := by
  unfold Socks5Handler.read_stream
  rcases hr : readLoop w.inReads h.buffer h.size with ⟨evs2, ro⟩
  have := readLoop_inv w.inReads h.buffer h.size hs evs2 ro hr
  cases ro <;> simpa using this

theorem read_buffer_inv (c : HttpClient) (w : World) (hs : c.size ≤ c.buffer.length) :
    (c.read_buffer w).1.size ≤ (c.read_buffer w).1.buffer.length := by
  unfold HttpClient.read_buffer
  rcases hr : readLoop w.outReads c.buffer c.size with ⟨evs2, ro⟩
  have := readLoop_inv w.outReads c.buffer c.size hs evs2 ro hr
  cases ro <;> simpa using this

/-- C7 counterexample: after the client drained a 19-byte 200 reply
(connection_response leaves size 19), the HTTP client's reset_buffer — the
first step of the relay path of server_protocol::relay_in — empties the
buffer but leaves size untouched, so size exceeds buffer.length right after
a buffer operation, refuting the invariant as claimed. -/
theorem c7_counterexample_reset_buffer_violates :
    respAfter.size = 19 ∧ respAfter.state = .RelayingOUT ∧
    ¬ ((respAfter.reset_buffer).size ≤ (respAfter.reset_buffer).buffer.length) := by
  have hr := http_connection_response_drained respClient respWorld respBytes [] rfl
    (by decide) (by decide)
  rw [show HttpClient.extract_statuscode
      { respClient with buffer := respBytes, size := respBytes.length } = some 200 from by
    decide] at hr
  dsimp only at hr
  rw [if_neg (by decide : ¬ (200 : Nat) ≠ 200)] at hr
  unfold respAfter
  rw [hr]
  refine ⟨by decide, rfl, ?_⟩
  decide

/-- C7 amended: every buffer operation except the HTTP client's
reset_buffer preserves size at or below the buffer length; both
clear_buffer operations leave size 0 and a 4096-byte buffer; the handler's
reset_buffer zeroes size alongside the buffer. -/
theorem c7_buffer_invariant :
    (∀ c : HttpClient, (c.clear_buffer).size = 0 ∧ (c.clear_buffer).buffer.length = 4096) ∧
    (∀ h : Socks5Handler, (h.clear_buffer).size = 0 ∧ (h.clear_buffer).buffer.length = 4096) ∧
    (∀ h : Socks5Handler, (h.reset_buffer).size ≤ (h.reset_buffer).buffer.length) ∧
    (∀ (c : HttpClient) (v : List UInt8), c.size ≤ c.buffer.length →
      (c.put_buff v).size ≤ (c.put_buff v).buffer.length) ∧
    (∀ (h : Socks5Handler) (b : UInt8), h.size ≤ h.buffer.length →
      (h.put_buffer b).size ≤ (h.put_buffer b).buffer.length) ∧
    (∀ (c : HttpClient) (src : List UInt8),
      (c.clone_buffer src).size ≤ (c.clone_buffer src).buffer.length) ∧
    (∀ (h : Socks5Handler) (w : World), h.size ≤ h.buffer.length →
      (h.read_stream w).1.size ≤ (h.read_stream w).1.buffer.length) ∧
    (∀ (c : HttpClient) (w : World), c.size ≤ c.buffer.length →
      (c.read_buffer w).1.size ≤ (c.read_buffer w).1.buffer.length) ∧
    (∀ (h : Socks5Handler) (w : World), h.size ≤ h.buffer.length →
      (h.write_stream w).1.size ≤ (h.write_stream w).1.buffer.length) ∧
    (∀ (c : HttpClient) (w : World), c.size ≤ c.buffer.length →
      (c.write_buffer w).1.size ≤ (c.write_buffer w).1.buffer.length) := by
  refine ⟨?_, ?_, ?_, ?_, ?_, ?_, read_stream_inv, read_buffer_inv, ?_, ?_⟩
  · intro c
    exact ⟨rfl, List.length_replicate 4096 0⟩
  · intro h
    exact ⟨rfl, List.length_replicate 4096 0⟩
  · intro h
    exact Nat.le_refl 0
  · intro c v hs
    unfold HttpClient.put_buff
    simp only [List.length_append]
    omega
  · intro h b hs
    unfold Socks5Handler.put_buffer
    simp only [List.length_append, List.length_cons, List.length_nil]
    omega
  · intro c src
    exact Nat.le_refl src.length
  · intro h w hs
    unfold Socks5Handler.write_stream
    dsimp only
    rcases hev : (popWrite w.inWrites).1 with n | _ | _ | _ <;> simp only [hev]
    · split_ifs <;> exact hs
    · exact hs
    · exact hs
    · exact hs
  · intro c w hs
    unfold HttpClient.write_buffer
    dsimp only
    rcases hev : (popWrite w.outWrites).1 with n | _ | _ | _ <;> simp only [hev]
    · split_ifs
      · exact hs
      · dsimp only
        omega
    · exact hs
    · exact hs
    · exact hs

theorem c7_buffer_invariant_witness :
    ((routClient.put_buff [7]).size ≤ (routClient.put_buff [7]).buffer.length) ∧
    (((Socks5Handler.new 1 []).put_buffer 5).size ≤
      ((Socks5Handler.new 1 []).put_buffer 5).buffer.length) ∧
    (((Socks5Handler.new 1 []).read_stream emptyWorld).1.size ≤
      ((Socks5Handler.new 1 []).read_stream emptyWorld).1.buffer.length) ∧
    ((routClient.read_buffer emptyWorld).1.size ≤
      (routClient.read_buffer emptyWorld).1.buffer.length) ∧
    (((Socks5Handler.new 1 []).write_stream emptyWorld).1.size ≤
      ((Socks5Handler.new 1 []).write_stream emptyWorld).1.buffer.length) ∧
    ((routClient.write_buffer emptyWorld).1.size ≤
      (routClient.write_buffer emptyWorld).1.buffer.length) :=
  ⟨c7_buffer_invariant.2.2.2.1 routClient [7] (by decide),
   c7_buffer_invariant.2.2.2.2.1 (Socks5Handler.new 1 []) 5 (Nat.zero_le _),
   c7_buffer_invariant.2.2.2.2.2.2.1 (Socks5Handler.new 1 []) emptyWorld (Nat.zero_le _),
   c7_buffer_invariant.2.2.2.2.2.2.2.1 routClient emptyWorld (by decide),
   c7_buffer_invariant.2.2.2.2.2.2.2.2.1 (Socks5Handler.new 1 []) emptyWorld (Nat.zero_le _),
   c7_buffer_invariant.2.2.2.2.2.2.2.2.2 routClient emptyWorld (by decide)⟩

/-- read_stream leaves the state alone unless the peer closed, which sets Closed. -/
theorem read_stream_state (h : Socks5Handler) (w : World) :
    (h.read_stream w).1.state = .Closed ∨ (h.read_stream w).1.state = h.state := by
  unfold Socks5Handler.read_stream
  rcases hr : readLoop w.inReads h.buffer h.size with ⟨evs2, ro⟩
  cases ro
  · exact Or.inl rfl
  · exact Or.inr rfl
  · exact Or.inr rfl

/-- read_buffer leaves the state alone unless the peer closed, which sets Closed. -/
theorem read_buffer_state (c : HttpClient) (w : World) :
    (c.read_buffer w).1.state = .Closed ∨ (c.read_buffer w).1.state = c.state := by
  unfold HttpClient.read_buffer
  rcases hr : readLoop w.outReads c.buffer c.size with ⟨evs2, ro⟩
  cases ro
  · exact Or.inl rfl
  · exact Or.inr rfl
  · exact Or.inr rfl

/-- write_stream leaves the state alone except interrupted, which sets Closed. -/
theorem write_stream_state (h : Socks5Handler) (w : World) :
    (h.write_stream w).1.state = .Closed ∨ (h.write_stream w).1.state = h.state := by
  unfold Socks5Handler.write_stream
  dsimp only
  rcases hev : (popWrite w.inWrites).1 with n | _ | _ | _ <;> simp only [hev] <;>
    first
      | (split_ifs <;> simp)
      | simp

/-- write_buffer leaves the state alone except interrupted, which sets Closed. -/
theorem write_buffer_state (c : HttpClient) (w : World) :
    (c.write_buffer w).1.state = .Closed ∨ (c.write_buffer w).1.state = c.state := by
  unfold HttpClient.write_buffer
  dsimp only
  rcases hev : (popWrite w.outWrites).1 with n | _ | _ | _ <;> simp only [hev] <;>
    first
      | (split_ifs <;> simp)
      | simp

/-- method_request moves the state to Closed or MethodResponse, or keeps it. -/
theorem socks_method_request_state (h : Socks5Handler) (w : World) :
    (socks_method_request h w).1.state = .Closed ∨
    (socks_method_request h w).1.state = .MethodResponse ∨
    (socks_method_request h w).1.state = h.state := by
  unfold socks_method_request
  have hstt := read_stream_state (h.clear_buffer) w
  rcases hr : (h.clear_buffer).read_stream w with ⟨h1, w1, r⟩
  rw [hr] at hstt
  dsimp only [Socks5Handler.clear_buffer] at hstt
  rcases r with b | _
  · cases b
    · dsimp only [Socks5Handler.set_state]
      rcases method_request_parse_total h1.buffer h1.size with hp | hp <;> rw [hp]
      · exact Or.inl rfl
      · exact Or.inr (Or.inl rfl)
    · dsimp only
      rcases hstt with hx | hx
      · exact Or.inl hx
      · exact Or.inr (Or.inr hx)
  · dsimp only
    rcases hstt with hx | hx
    · exact Or.inl hx
    · exact Or.inr (Or.inr hx)

/-- method_response always leaves state ConnectionRequest (set after the write). -/
theorem socks_method_response_state (h : Socks5Handler) (w : World) :
    (socks_method_response h w).1.state = .ConnectionRequest := rfl

/-- connection_response always leaves state Relaying (set after the write). -/
theorem socks_connection_response_state (h : Socks5Handler) (w : World) :
    (socks_connection_response h w).1.state = .Relaying := rfl

/-- The connect-frame parse decides only Closed or ClientConnectionRequest. -/
theorem socks_parse_request_state (dns : List (List UInt8 × List IpAddr))
    (buffer : List UInt8) (size : Nat) (st : Socks5State) (done : Bool)
    (tgt : Option Target) (heq : socks_parse_request dns buffer size = some (st, done, tgt)) :
    st = .Closed ∨ st = .ClientConnectionRequest := by
  unfold socks_parse_request at heq
  split at heq
  case _ =>
    split_ifs at heq <;> (try (repeat' (split at heq))) <;>
      first
        | exact Option.noConfusion heq
        | (simp only [Option.some.injEq, Prod.mk.injEq] at heq
           first
             | exact Or.inl heq.1.symm
             | exact Or.inr heq.1.symm)
  case _ => exact Option.noConfusion heq

/-- connection_request moves to Closed or ClientConnectionRequest, or keeps the state. -/
theorem socks_connection_request_state (h : Socks5Handler) (w : World)
    (out : Socks5Handler × World × IoRes) (hout : socks_connection_request h w = some out) :
    out.1.state = .Closed ∨ out.1.state = .ClientConnectionRequest ∨
      out.1.state = h.state := by
  unfold socks_connection_request at hout
  have hstt := read_stream_state (h.clear_buffer) w
  rcases hr : (h.clear_buffer).read_stream w with ⟨h1, w1, r⟩
  rw [hr] at hout hstt
  dsimp only [Socks5Handler.clear_buffer] at hstt
  rcases r with b | _
  · cases b
    · dsimp only at hout
      rcases hp : socks_parse_request w1.dns h1.buffer h1.size with _ | ⟨st, done, tgt⟩ <;>
        rw [hp] at hout
      · exact Option.noConfusion hout
      · dsimp only at hout
        injection hout with hx
        rw [← hx]
        rcases socks_parse_request_state w1.dns h1.buffer h1.size st done tgt hp with hs | hs
        · rcases tgt with _ | t <;> exact Or.inl hs
        · rcases tgt with _ | t <;> exact Or.inr (Or.inl hs)
    · dsimp only at hout
      injection hout with hx
      rw [← hx]
      rcases hstt with hx2 | hx2
      · exact Or.inl hx2
      · exact Or.inr (Or.inr hx2)
  · dsimp only at hout
    injection hout with hx
    rw [← hx]
    rcases hstt with hx2 | hx2
    · exact Or.inl hx2
    · exact Or.inr (Or.inr hx2)

/-- relay_in keeps the handler state unless the inbound read closed it. -/
theorem socks_relay_in_state (h : Socks5Handler) (w : World)
    (out : Socks5Handler × World × IoRes) (hout : socks_relay_in h w = some out) :
    out.1.state = .Closed ∨ out.1.state = h.state := by
  unfold socks_relay_in at hout
  have hstt := read_stream_state (h.clear_buffer) w
  rcases hr : (h.clear_buffer).read_stream w with ⟨h1, w1, r⟩
  rw [hr] at hout hstt
  dsimp only [Socks5Handler.clear_buffer] at hstt
  rcases r with b | _
  · cases b
    · dsimp only at hout
      rcases hc : h1.client with _ | c <;> rw [hc] at hout
      · exact Option.noConfusion hout
      · dsimp only at hout
        injection hout with hx
        rw [← hx]
        exact hstt
    · dsimp only at hout
      injection hout with hx
      rw [← hx]
      exact hstt
  · dsimp only at hout
    injection hout with hx
    rw [← hx]
    exact hstt

/-- relay_out keeps the handler state unless the inbound write closed it. -/
theorem socks_relay_out_state (h : Socks5Handler) (w : World)
    (out : Socks5Handler × World × IoRes) (hout : socks_relay_out h w = some out) :
    out.1.state = .Closed ∨ out.1.state = h.state := by
  unfold socks_relay_out at hout
  dsimp only [Socks5Handler.reset_buffer] at hout
  rcases hc : h.client with _ | c <;> rw [hc] at hout
  · exact Option.noConfusion hout
  · dsimp only at hout
    rcases hr : (c.clear_buffer).read_buffer w with ⟨c1, w1, r⟩
    rw [hr] at hout
    rcases r with b | _
    · cases b
      · dsimp only at hout
        split_ifs at hout
        · injection hout with hx
          rw [← hx]
          exact Or.inr rfl
        · injection hout with hx
          rw [← hx]
          exact write_stream_state _ w1
      · dsimp only at hout
        injection hout with hx
        rw [← hx]
        exact Or.inr rfl
    · dsimp only at hout
      injection hout with hx
      rw [← hx]
      exact Or.inr rfl

/-- connection_response moves the client to Closed or RelayingOUT, or keeps its state. -/
theorem http_connection_response_state (c : HttpClient) (w : World) :
    (http_connection_response c w).1.state = .Closed ∨
    (http_connection_response c w).1.state = .RelayingOUT ∨
    (http_connection_response c w).1.state = c.state := by
  unfold http_connection_response
  have hstt := read_buffer_state (c.clear_buffer) w
  rcases hr : (c.clear_buffer).read_buffer w with ⟨c1, w1, r⟩
  rw [hr] at hstt
  dsimp only [HttpClient.clear_buffer] at hstt
  rcases r with b | _
  · cases b
    · dsimp only
      split_ifs with h0
      · rcases hstt with hx | hx
        · exact Or.inl hx
        · exact Or.inr (Or.inr hx)
      · rcases hsc : c1.extract_statuscode with _ | code
        · rcases hstt with hx | hx
          · exact Or.inl hx
          · exact Or.inr (Or.inr hx)
        · dsimp only
          split_ifs with h200
          · rcases hstt with hx | hx
            · exact Or.inl hx
            · exact Or.inr (Or.inr hx)
          · exact Or.inr (Or.inl rfl)
    · dsimp only
      rcases hstt with hx | hx
      · exact Or.inl hx
      · exact Or.inr (Or.inr hx)
  · dsimp only
    rcases hstt with hx | hx
    · exact Or.inl hx
    · exact Or.inr (Or.inr hx)

/-- relay_in moves the client to Closed or RelayingOUT, or keeps its state. -/
theorem http_relay_in_state (c : HttpClient) (w : World) :
    (http_relay_in c w).1.state = .Closed ∨
    (http_relay_in c w).1.state = .RelayingOUT ∨
    (http_relay_in c w).1.state = c.state := by
  unfold http_relay_in
  have hstt := read_buffer_state (c.clear_buffer) w
  rcases hr : (c.clear_buffer).read_buffer w with ⟨c1, w1, r⟩
  rw [hr] at hstt
  dsimp only [HttpClient.clear_buffer] at hstt
  rcases r with b | _
  · cases b
    · exact Or.inr (Or.inl rfl)
    · dsimp only
      rcases hstt with hx | hx
      · exact Or.inl hx
      · exact Or.inr (Or.inr hx)
  · dsimp only
    rcases hstt with hx | hx
    · exact Or.inl hx
    · exact Or.inr (Or.inr hx)

/-- relay_out moves the client to RelayingIN or Closed, or keeps its state. -/
theorem http_relay_out_state (c : HttpClient) (w : World) :
    (http_relay_out c w).1.state = .RelayingIN ∨
    (http_relay_out c w).1.state = .Closed ∨
    (http_relay_out c w).1.state = c.state := by
  unfold http_relay_out
  split_ifs
  · exact Or.inr (Or.inr rfl)
  · rcases write_buffer_state (c.set_state .RelayingIN) w with hx | hx
    · exact Or.inr (Or.inl hx)
    · exact Or.inl hx

/-- The readable phase never lowers the rank of the handler state. -/
theorem socks_readable_rank (h : Socks5Handler) (tok uniq : Nat) (sub : List (Nat × Nat))
    (w : World) (bo : BranchOut) (hbo : socks_readable h tok uniq sub w = some bo) :
    socksRank h.state ≤ socksRank bo.sess.state := by
  unfold socks_readable at hbo
  split_ifs at hbo with h1 h2 h3
  · rw [h1.1]
    exact Nat.zero_le _
  · rcases hcr : socks_connection_request h w with _ | ⟨ha, wa, res⟩ <;> rw [hcr] at hbo
    · exact Option.noConfusion hbo
    · dsimp only at hbo
      rcases hp : ha.subproxy.head? with _ | proxy <;> rw [hp] at hbo
      · exact Option.noConfusion hbo
      · dsimp only at hbo
        have hstate := socks_connection_request_state h w (ha, wa, res) hcr
        dsimp only at hstate
        split_ifs at hbo <;> injection hbo with hx <;> rw [← hx] <;>
          rcases hstate with hs | hs | hs <;>
          simp [BranchOut.sess, socksRank, Socks5Handler.set_state, hs, h2.1]
  · rcases hc : h.client with _ | c <;> rw [hc] at hbo
    · exact Option.noConfusion hbo
    · dsimp only at hbo
      rcases hch : c.handle w none with _ | ⟨c1, w1, res⟩ <;> rw [hch] at hbo
      · exact Option.noConfusion hbo
      · dsimp only at hbo
        split_ifs at hbo <;> injection hbo with hx <;> rw [← hx] <;>
          simp [BranchOut.sess, socksRank, Socks5Handler.set_state, h3]
  · injection hbo with hx
    rw [← hx]
    exact Nat.le_refl _

/-- The writable phase never lowers the rank of the handler state. -/
theorem socks_writable_rank (h : Socks5Handler) (tok uniq : Nat) (sub : List (Nat × Nat))
    (w : World) (bo : BranchOut) (hbo : socks_writable h tok uniq sub w = some bo) :
    socksRank h.state ≤ socksRank bo.sess.state := by
  unfold socks_writable at hbo
  split_ifs at hbo with h1 h2 h3
  · rcases hmr : socks_method_response h w with ⟨ha, wa, res⟩
    rw [hmr] at hbo
    have hstate : ha.state = .ConnectionRequest := by
      have h5 := socks_method_response_state h w
      rw [hmr] at h5
      exact h5
    rcases res with b | _
    · cases b <;> injection hbo with hx <;> rw [← hx] <;>
        simp [BranchOut.sess, socksRank, hstate, h1]
    · injection hbo with hx
      rw [← hx]
      simp [BranchOut.sess, socksRank, hstate, h1]
  · rcases hc : h.client with _ | c <;> rw [hc] at hbo
    · exact Option.noConfusion hbo
    · dsimp only at hbo
      rcases hch : c.handle w none with _ | ⟨c1, w1, res⟩ <;> rw [hch] at hbo
      · exact Option.noConfusion hbo
      · dsimp only at hbo
        split_ifs at hbo <;> injection hbo with hx <;> rw [← hx] <;>
          simp [BranchOut.sess, socksRank, Socks5Handler.set_state, h2]
  · rcases hcr : socks_connection_response h w with ⟨ha, wa, res⟩
    rw [hcr] at hbo
    have hstate : ha.state = .Relaying := by
      have h5 := socks_connection_response_state h w
      rw [hcr] at h5
      exact h5
    rcases res with b | _
    · cases b <;> injection hbo with hx <;> rw [← hx] <;>
        simp [BranchOut.sess, socksRank, hstate, h3]
    · injection hbo with hx
      rw [← hx]
      simp [BranchOut.sess, socksRank, hstate, h3]
  · injection hbo with hx
    rw [← hx]
    exact Nat.le_refl _

/-- Closed has the top rank. -/
theorem socksRank_le_closed (s : Socks5State) : socksRank s ≤ socksRank .Closed := by
  cases s <;> decide

/-- Socks5Handler::handle never lowers the rank of the handler state. -/
theorem socks_handle_rank (h : Socks5Handler) (tok uniq : Nat) (sub : List (Nat × Nat))
    (readable writable : Bool) (w : World)
    (out : Socks5Handler × Nat × List (Nat × Nat) × World × IoRes)
    (hout : h.handle tok uniq sub readable writable w = some out) :
    socksRank h.state ≤ socksRank out.1.state := by
  unfold Socks5Handler.handle at hout
  have hphase1 : ∀ bo : BranchOut,
      (if readable then socks_readable h tok uniq sub w else some (.next h uniq sub w)) =
        some bo → socksRank h.state ≤ socksRank bo.sess.state := by
    intro bo hbo
    cases readable
    · rw [if_neg Bool.false_ne_true] at hbo
      injection hbo with hx
      rw [← hx]
      exact Nat.le_refl _
    · rw [if_pos rfl] at hbo
      exact socks_readable_rank h tok uniq sub w bo hbo
  rcases hro : (if readable then socks_readable h tok uniq sub w
      else some (.next h uniq sub w)) with _ | bo1
  · rw [hro] at hout
    exact Option.noConfusion hout
  · rw [hro] at hout
    have h1le := hphase1 bo1 hro
    cases bo1 with
    | done h1 u1 s1 w1 r =>
      dsimp only at hout
      injection hout with hx
      rw [← hx]
      exact h1le
    | next h1 u1 s1 w1 =>
      dsimp only [BranchOut.sess] at h1le
      dsimp only at hout
      have hphase2 : ∀ bo : BranchOut,
          (if writable then socks_writable h1 tok u1 s1 w1 else some (.next h1 u1 s1 w1)) =
            some bo → socksRank h1.state ≤ socksRank bo.sess.state := by
        intro bo hbo
        cases writable
        · rw [if_neg Bool.false_ne_true] at hbo
          injection hbo with hx
          rw [← hx]
          exact Nat.le_refl _
        · rw [if_pos rfl] at hbo
          exact socks_writable_rank h1 tok u1 s1 w1 bo hbo
      rcases hwo : (if writable then socks_writable h1 tok u1 s1 w1
          else some (.next h1 u1 s1 w1)) with _ | bo2
      · rw [hwo] at hout
        exact Option.noConfusion hout
      · rw [hwo] at hout
        have h2le := hphase2 bo2 hwo
        cases bo2 with
        | done h2 u2 s2 w2 r =>
          dsimp only at hout
          injection hout with hx
          rw [← hx]
          exact Nat.le_trans h1le h2le
        | next h2 u2 s2 w2 =>
          dsimp only [BranchOut.sess] at h2le
          dsimp only at hout
          have hle12 := Nat.le_trans h1le h2le
          split_ifs at hout with hrel htok
          · rcases hso : socks_relay_out h2 w2 with _ | ⟨h3, w3, r⟩ <;> rw [hso] at hout
            · exact Option.noConfusion hout
            · dsimp only at hout
              injection hout with hx
              rw [← hx]
              rcases socks_relay_out_state h2 w2 (h3, w3, r) hso with hs | hs <;>
                dsimp only at hs <;> rw [hs]
              · exact socksRank_le_closed h.state
              · exact hle12
          · rcases hsi : socks_relay_in h2 w2 with _ | ⟨h3, w3, r⟩ <;> rw [hsi] at hout
            · exact Option.noConfusion hout
            · dsimp only at hout
              injection hout with hx
              rw [← hx]
              rcases socks_relay_in_state h2 w2 (h3, w3, r) hsi with hs | hs <;>
                dsimp only at hs <;> rw [hs]
              · exact socksRank_le_closed h.state
              · exact hle12
          · injection hout with hx
            rw [← hx]
            exact hle12

/-- HttpClient::handle never lowers the rank of the client state when it
starts anywhere but RelayingIN. -/
theorem http_handle_rank (c : HttpClient) (w : World) (v : Option (List UInt8))
    (out : HttpClient × World × IoRes) (hne : c.state ≠ .RelayingIN)
    (hout : c.handle w v = some out) :
    httpRank c.state ≤ httpRank out.1.state := by
  unfold HttpClient.handle at hout
  cases hst : c.state
  all_goals rw [hst] at hout
  · dsimp only at hout
    injection hout with hx
    rw [← hx]
    exact Nat.zero_le _
  · dsimp only at hout
    injection hout with hx
    rw [← hx]
    rcases http_connection_response_state c w with hs | hs | hs <;>
      simp [hs, hst, httpRank]
  · rw [hst] at hne
    exact absurd rfl hne
  · rcases v with _ | v
    · dsimp only at hout
      exact Option.noConfusion hout
    · dsimp only at hout
      injection hout with hx
      rw [← hx]
      rcases http_relay_out_state ⟨c.remote, c.target, c.hasStream, v, v.length,
          .RelayingOUT⟩ w with hs | hs | hs <;>
        simp [hs, hst, httpRank]
  · dsimp only at hout
    injection hout with hx
    rw [← hx]
    exact Nat.le_of_eq (congrArg httpRank hst.symm)

/-- A Closed handler is inert: handle matches no phase and reports not done. -/
theorem socks_handle_closed (h : Socks5Handler) (tok uniq : Nat) (sub : List (Nat × Nat))
    (readable writable : Bool) (w : World) (hc : h.state = .Closed) :
    h.handle tok uniq sub readable writable w = some (h, uniq, sub, w, .ok false) := by
  have hro : socks_readable h tok uniq sub w = some (.next h uniq sub w) := by
    unfold socks_readable
    simp [hc]
  have hwo : socks_writable h tok uniq sub w = some (.next h uniq sub w) := by
    unfold socks_writable
    simp [hc]
  unfold Socks5Handler.handle
  have h1 : (if readable then socks_readable h tok uniq sub w
      else some (.next h uniq sub w)) = some (.next h uniq sub w) := by
    cases readable
    · rw [if_neg Bool.false_ne_true]
    · rw [if_pos rfl]
      exact hro
  rw [h1]
  dsimp only
  have h2 : (if writable then socks_writable h tok uniq sub w
      else some (.next h uniq sub w)) = some (.next h uniq sub w) := by
    cases writable
    · rw [if_neg Bool.false_ne_true]
    · rw [if_pos rfl]
      exact hwo
  rw [h2]
  dsimp only
  rw [if_neg (fun hcc => by rw [hc] at hcc; exact Socks5State.noConfusion hcc)]

/-- A Closed client is inert: handle returns it unchanged and not done. -/
theorem http_handle_closed (c : HttpClient) (w : World) (v : Option (List UInt8))
    (hc : c.state = .Closed) : c.handle w v = some (c, w, .ok false) := by
  unfold HttpClient.handle
  rw [hc]

/-- C6 counterexample: from RelayingIN, one readable event carrying upstream
bytes moves the HTTP client back to RelayingOUT (client_protocol::relay_in
sets RELAYING_OUT after every drain with data), so RelayingIN and
RelayingOUT alternate: the state moves backward in the spec's order, the
transition graph has a cycle, and both states are visited twice in any
relaying session with two exchanges. -/
theorem c6_counterexample_relay_cycle :
    cycleClient.state = .RelayingIN ∧
    cycleClient.handle cycleWorld none =
      some ({ cycleClient with buffer := [7], size := 1, state := .RelayingOUT },
            { cycleWorld with outReads := [] }, .ok false) ∧
    httpRank .RelayingOUT < httpRank cycleClient.state := by
  refine ⟨rfl, ?_, by decide⟩
  have hrelay := http_relay_in_drained cycleClient cycleWorld [7] [] rfl
    (by decide) (by decide)
  unfold HttpClient.handle
  rw [show cycleClient.state = .RelayingIN from rfl]
  dsimp only
  rw [hrelay]
  simp

/-- C6: what does hold of the claimed DAG invariant. The SOCKS5 handler's
state never moves backward across any handle call, in the order
MethodRequest, MethodResponse, ConnectionRequest, ClientConnectionRequest,
ClientConnectionResponse, ConnectionResponse, Relaying, Closed; the HTTP
client's state never moves backward from any state other than RelayingIN
(from RelayingIN it can move back to RelayingOUT, see the counterexample);
and Closed is terminal for both machines: a handle call on a Closed
session changes nothing and reports not done. -/
theorem c6_state_progression :
    (∀ (h : Socks5Handler) (tok uniq : Nat) (sub : List (Nat × Nat))
        (readable writable : Bool) (w : World)
        (out : Socks5Handler × Nat × List (Nat × Nat) × World × IoRes),
        h.handle tok uniq sub readable writable w = some out →
        socksRank h.state ≤ socksRank out.1.state) ∧
    (∀ (c : HttpClient) (w : World) (v : Option (List UInt8))
        (out : HttpClient × World × IoRes),
        c.state ≠ .RelayingIN → c.handle w v = some out →
        httpRank c.state ≤ httpRank out.1.state) ∧
    (∀ (h : Socks5Handler) (tok uniq : Nat) (sub : List (Nat × Nat))
        (readable writable : Bool) (w : World),
        h.state = .Closed →
        h.handle tok uniq sub readable writable w = some (h, uniq, sub, w, .ok false)) ∧
    (∀ (c : HttpClient) (w : World) (v : Option (List UInt8)),
        c.state = .Closed → c.handle w v = some (c, w, .ok false)) :=
  ⟨socks_handle_rank, http_handle_rank, socks_handle_closed, http_handle_closed⟩

/-- C6 witness: the Closed-terminal conjunct evaluated on a concrete closed
client. -/
theorem c6_state_progression_witness :
    closedClient.handle emptyWorld none = some (closedClient, emptyWorld, .ok false) :=
  c6_state_progression.2.2.2 closedClient emptyWorld none rfl
